import Mathlib

/-!
# Verification of the gescript core (lexer / compiler surface / stack machine)

Shallow embedding of the gescript sources:
  * `internal/parser/lexer.go`   — `gesLex`, `gesLex.lex`, `gesLex.Lex`, keyword table
  * `internal/parser/compiler.go`— error surfacing of `Parse`
  * `internal/engine/operations.go` — `PushLiteralValue`, `AdditionOperation`
  * engine process/function file — `Process` (stack, push/peek/pop), `Function.Exec`

Modelling conventions:
  * Go byte buffers become `Array Nat` (byte values 0..255) with the NUL
    sentinel appended, as `newLexer` does.  Reads use `byteAt` which yields 0
    out of range; the Go code never reads out of range thanks to the sentinel
    (verified branch by branch), so this matches the source.
  * Go `int64` values are carried as `Int` with explicit two's-complement
    wrapping (`wrap64`, `int64ofU64`); unsigned 64-bit accumulators as `Nat`
    reduced `% 2 ^ 64`.
  * Go runtime panics (out-of-range index, nil dereference, failed type
    assertion, negative slice bound) are modelled as explicit `goPanic`
    outcomes, distinct from returned `error` values.
  * `float64` values are not modelled (floating point): a scanned `Number`
    literal carries the raw scanned text, and `strconv.ParseFloat` is modelled
    by its syntax-validity check `goFloatValid` (range failures for huge
    exponents share the same error path in Go and are not distinguished; no
    claim depends on a float's numeric value).
  * Loops become fuel-based recursions; every caller supplies fuel that is, by
    construction, larger than the number of iterations the Go loop can make
    (each iteration strictly advances the cursor, bounded by the buffer size).
-/

/-- Read a byte of the scanned buffer; the buffer carries the NUL sentinel, and
out-of-range reads (never performed by the source on sentinel-terminated input)
yield the sentinel value 0. -/
def byteAt (src : Array Nat) (i : Nat) : Nat :=
  src.getD i 0

/-- UTF-8 encoding of a code point, as Go's `[]byte(string(rune))` conversion:
surrogates and out-of-range values encode the replacement character U+FFFD. -/
def utf8Encode (c : Nat) : List Nat :=
  if c < 0x80 then [c]
  else if c < 0x800 then [0xC0 + c / 0x40, 0x80 + c % 0x40]
  else if 0xD800 ≤ c ∧ c < 0xE000 then [0xEF, 0xBF, 0xBD]
  else if c < 0x10000 then [0xE0 + c / 0x1000, 0x80 + c / 0x40 % 0x40, 0x80 + c % 0x40]
  else if c < 0x110000 then
    [0xF0 + c / 0x40000, 0x80 + c / 0x1000 % 0x40, 0x80 + c / 0x40 % 0x40, 0x80 + c % 0x40]
  else [0xEF, 0xBF, 0xBD]

/-- Bytes of a Lean string (UTF-8), used for keyword spellings and test inputs. -/
def strBytes (s : String) : List Nat :=
  s.data.foldr (fun c acc => utf8Encode c.toNat ++ acc) []

/-- ASCII byte list back to a string (identifiers and numeric spellings are
ASCII in the scanner). -/
def bytesToString (bs : List Nat) : String :=
  String.mk (bs.map Char.ofNat)

/-- Two's-complement wrap of an integer into the signed 64-bit range, the
behaviour of Go `int64` arithmetic. -/
def wrap64 (n : Int) : Int :=
  (n + 2 ^ 63) % 2 ^ 64 - 2 ^ 63

/-- Signed reading of an unsigned 64-bit representative (Go's
`int64(uint64value)` reinterpretation). -/
def int64ofU64 (u : Nat) : Int :=
  if u < 2 ^ 63 then (u : Int) else (u : Int) - 2 ^ 64

/-- `types.DataType`: the polymorphic value model (the `types` package is not
part of the provided sources; the variant set follows spec §3, with `number`
carrying the scanned text per the float convention above). -/
inductive DataType where
  | undefined : DataType
  | nullValue : DataType
  | boolean : Bool → DataType
  | integer : Int → DataType
  | number : String → DataType
  | stringValue : List Nat → DataType
deriving DecidableEq, Repr

/-- Token kinds (`GTOK_*` from the generated grammar): keywords are carried by
their spelling, mirroring the distinct integer codes of the source; `eof` is
the 0 return; `goPanic` marks the one scanner corner where the Go source
panics on a negative slice bound (a `.`-led numeral at buffer offset 0). -/
inductive Tok where
  | eof | err | goPanic
  | kw : String → Tok
  | ident | lit | regexp
  | lc | rc | lp | rp | lb | rb | dot | semi | comma | tilde | qmark | colon
  | lteq | ltlt | lt | gteq | gtgtgt | gtgt | gt
  | eqeqeq | eqeq | regeq | assignop
  | noteqeq | noteq | regnoteq | not
  | incr | add | decr | sub | mult | div | mod
  | andand | and | oror | or | xor
deriving DecidableEq, Repr

/-- `PARSED_*` tags of `gesSymType.parseType`. -/
inductive ParseType where
  | undefined | identifier | literal | regexp
deriving DecidableEq, Repr

/-- `gesSymType`: the parse payload produced with every token. -/
structure gesSymType where
  parseType : ParseType := .undefined
  identifier : String := ""
  literal : DataType := .undefined
  assignOp : Option Tok := none
deriving DecidableEq, Repr

/-- `gesLex`: the scanner state (the `ctx` back-reference to the compilation
context carries no lexical information and is omitted). -/
structure gesLex where
  source : Array Nat
  offset : Nat
  lineNumber : Nat
  regexValid : Bool
  error : Option String
deriving DecidableEq, Repr

/-- `newLexer`: fresh scanner over the source with the NUL sentinel appended. -/
def newLexer (source : String) : gesLex :=
  { source := (strBytes source).toArray.push 0
    offset := 0
    lineNumber := 1
    regexValid := false
    error := none }

/-- The keyword table of `lexer.go`, in source order. -/
def keywords : List (String × Tok) :=
  [("break", .kw "break"), ("case", .kw "case"), ("catch", .kw "catch"),
   ("class", .kw "class"), ("const", .kw "const"), ("continue", .kw "continue"),
   ("debugger", .kw "debugger"), ("default", .kw "default"),
   ("delete", .kw "delete"), ("do", .kw "do"), ("else", .kw "else"),
   ("export", .kw "export"), ("extends", .kw "extends"),
   ("finally", .kw "finally"), ("for", .kw "for"), ("function", .kw "function"),
   ("if", .kw "if"), ("import", .kw "import"), ("in", .kw "in"),
   ("instanceof", .kw "instanceof"), ("let", .kw "let"), ("new", .kw "new"),
   ("return", .kw "return"), ("super", .kw "super"), ("switch", .kw "switch"),
   ("this", .kw "this"), ("throw", .kw "throw"), ("try", .kw "try"),
   ("typeof", .kw "typeof"), ("var", .kw "var"), ("void", .kw "void"),
   ("while", .kw "while"), ("with", .kw "with"), ("yield", .kw "yield"),
   ("await", .kw "await"), ("enum", .kw "enum"),
   ("implements", .kw "implements"), ("interface", .kw "interface"),
   ("package", .kw "package"), ("private", .kw "private"),
   ("protected", .kw "protected"), ("public", .kw "public"),
   ("null", .kw "null"), ("true", .kw "true"), ("false", .kw "false")]

/-- `isHex` from lexer.go. -/
def isHex (ch : Nat) : Bool :=
  (48 ≤ ch ∧ ch ≤ 57) ∨ (97 ≤ ch ∧ ch ≤ 102) ∨ (65 ≤ ch ∧ ch ≤ 70)

/-- `hexToInt` from lexer.go (0 for non-hex bytes, as the source). -/
def hexToInt (ch : Nat) : Nat :=
  if 48 ≤ ch ∧ ch ≤ 57 then ch - 48
  else if 97 ≤ ch ∧ ch ≤ 102 then ch - 87
  else if 65 ≤ ch ∧ ch ≤ 70 then ch - 55
  else 0

/-- Identifier start bytes: `[A-Za-z_$]`. -/
def identStartByte (ch : Nat) : Bool :=
  (97 ≤ ch ∧ ch ≤ 122) ∨ (65 ≤ ch ∧ ch ≤ 90) ∨ ch = 36 ∨ ch = 95

/-- Identifier continuation bytes: `[A-Za-z0-9_$]`. -/
def identByte (ch : Nat) : Bool :=
  (97 ≤ ch ∧ ch ≤ 122) ∨ (65 ≤ ch ∧ ch ≤ 90) ∨ (48 ≤ ch ∧ ch ≤ 57) ∨ ch = 36 ∨ ch = 95

/-- End of the identifier run starting at `i` (the inner scan loop of the
identifier branch; the loop also stops at the NUL sentinel, which is not an
identifier byte). -/
def identEnd (fuel : Nat) (src : Array Nat) (i : Nat) : Nat :=
  match fuel with
  | 0 => i
  | fuel + 1 => if identByte (byteAt src i) then identEnd fuel src (i + 1) else i

/-- `b - a` bytes of the buffer starting at `a`. -/
def byteSliceGo (src : Array Nat) : Nat → Nat → List Nat
  | 0, _ => []
  | n + 1, a => byteAt src a :: byteSliceGo src n (a + 1)

/-- The byte slice `src[a:b]` as a list. -/
def byteSlice (src : Array Nat) (a b : Nat) : List Nat :=
  byteSliceGo src (b - a) a

/-- Keyword search: length test then byte equality, per the source loop. -/
def keywordLookup (slice : List Nat) : List (String × Tok) → Option Tok
  | [] => none
  | (w, t) :: rest =>
    if slice.length = (strBytes w).length ∧ slice = strBytes w then some t
    else keywordLookup slice rest

/-- First offset `≥ i` holding NUL, CR or LF (single-line comment scan). -/
def eolScan (fuel : Nat) (src : Array Nat) (i : Nat) : Nat :=
  match fuel with
  | 0 => i
  | fuel + 1 =>
    let ch := byteAt src i
    if ch ≠ 0 ∧ ch ≠ 13 ∧ ch ≠ 10 then eolScan fuel src (i + 1) else i

/-- Multi-line comment scan: advance to NUL or the `*` of `*/`, counting line
breaks with the CRLF-merging rule of the source; returns the stop offset and
the updated line counter. -/
def blockScan (fuel : Nat) (src : Array Nat) (i line : Nat) : Nat × Nat :=
  match fuel with
  | 0 => (i, line)
  | fuel + 1 =>
    let ch := byteAt src i
    if ch ≠ 0 ∧ ¬(ch = 42 ∧ byteAt src (i + 1) = 47) then
      if ch = 10 then blockScan fuel src (i + 1) (line + 1)
      else if ch = 13 then
        if byteAt src (i + 1) = 10 then blockScan fuel src (i + 2) (line + 1)
        else blockScan fuel src (i + 1) (line + 1)
      else blockScan fuel src (i + 1) line
    else (i, line)

/-- One step of the hex digit loop: `ival = (ival << 4) | hexToInt(ch)` on a
Go `int64`; `u` is the unsigned 64-bit representative. -/
def hexAccum (u : Nat) (ch : Nat) : Nat :=
  ((u <<< 4) ||| hexToInt ch) % 2 ^ 64

/-- One step of the octal digit loop: `ival = ival<<3 | (int64(ch) - 48)`. -/
def octAccum (u : Nat) (ch : Nat) : Nat :=
  ((u <<< 3) ||| (ch - 48)) % 2 ^ 64

/-- The digit loop of the numeric branch (`for isHex(ch) { ... }`): consumes
hex digits for radix 16, octal digits for radix 8, decimal digits otherwise
(without accumulating — the decimal value is re-parsed from the slice), and
returns the stop offset with the accumulated unsigned value. -/
def scanDigits (fuel : Nat) (src : Array Nat) (radix : Nat) (i : Nat) (u : Nat) : Nat × Nat :=
  match fuel with
  | 0 => (i, u)
  | fuel + 1 =>
    let ch := byteAt src i
    if isHex ch then
      if radix = 16 then scanDigits fuel src radix (i + 1) (hexAccum u ch)
      else if radix = 8 then
        if 48 ≤ ch ∧ ch ≤ 55 then scanDigits fuel src radix (i + 1) (octAccum u ch)
        else (i, u)
      else
        if ch < 48 ∨ 57 < ch then (i, u)
        else scanDigits fuel src radix (i + 1) u
    else (i, u)

/-- Characters consumed by the floating-literal re-scan: digits, `.`, `e`,
`E` and `-` (the source consumes `-` at any position). -/
def floatChar (ch : Nat) : Bool :=
  (48 ≤ ch ∧ ch ≤ 57) ∨ ch = 46 ∨ ch = 101 ∨ ch = 69 ∨ ch = 45

/-- The floating-literal re-scan loop. -/
def floatScan (fuel : Nat) (src : Array Nat) (i : Nat) : Nat :=
  match fuel with
  | 0 => i
  | fuel + 1 => if floatChar (byteAt src i) then floatScan fuel src (i + 1) else i

/-- Leading run of decimal digit bytes of a byte list. -/
def digitsRun : List Nat → Nat × List Nat
  | [] => (0, [])
  | b :: rest =>
    if 48 ≤ b ∧ b ≤ 57 then
      let (n, r) := digitsRun rest
      (n + 1, r)
    else (0, b :: rest)

/-- Syntax validity of `strconv.ParseFloat` (decimal form) on the byte sets
the scanner can produce: an integer part, an optional fraction after one `.`,
at least one digit overall, and an optional exponent `e`/`E` with optional
sign and at least one digit; the whole input must be consumed. -/
def goFloatValid (bs : List Nat) : Bool :=
  let (d1, r1) := digitsRun bs
  let (d2, r2) :=
    match r1 with
    | 46 :: t => digitsRun t
    | _ => (0, r1)
  if d1 + d2 = 0 then false
  else
    match r2 with
    | [] => true
    | e :: t =>
      if e = 101 ∨ e = 69 then
        let t2 := match t with
          | 43 :: t' => t'
          | 45 :: t' => t'
          | _ => t
        let (d3, r3) := digitsRun t2
        decide (0 < d3) && decide (r3 = [])
      else false

/-- Value of a decimal digit byte list (most significant first). -/
def decimalVal (bs : List Nat) : Nat :=
  bs.foldl (fun a b => 10 * a + (b - 48)) 0

/-- `strconv.ParseInt(sval, 10, 64)` on the scanner's slices (non-empty pure
digit runs): the exact value if it fits a signed 64-bit integer, `none`
(ErrRange) otherwise. -/
def goParseInt10 (bs : List Nat) : Option Int :=
  if bs = [] ∨ ¬ bs.all (fun b => 48 ≤ b ∧ b ≤ 57) then none
  else if decimalVal bs ≤ 2 ^ 63 - 1 then some (decimalVal bs) else none

/-- Result of the string-literal scan loop. -/
inductive StrScan where
  | ok : Nat → Nat → List Nat → StrScan
  | fail : String → Nat → StrScan
deriving DecidableEq, Repr

/-- The string-literal loop of `gesLex.lex` (lexer.go 333–446): `qch` is the
opening quote, `eso` the read cursor, `line` the running line counter and
`acc` the decoded bytes.  `wch` starts as a space and is appended after every
escape, including line continuations, exactly as the source. -/
def scanString (fuel : Nat) (src : Array Nat) (qch eso line : Nat)
    (acc : List Nat) : StrScan :=
  match fuel with
  | 0 => .fail "fuel exhausted" line
  | fuel + 1 =>
    let ch := byteAt src eso
    if ch = qch then .ok (eso + 1) line acc
    else if ch = 13 ∨ ch = 10 ∨ ch = 0 then .fail "Unterminated string literal" line
    else if ch = 92 then
      let ech := byteAt src (eso + 1)
      if ech = 98 then scanString fuel src qch (eso + 2) line (acc ++ utf8Encode 8)
      else if ech = 102 then scanString fuel src qch (eso + 2) line (acc ++ utf8Encode 12)
      else if ech = 110 then scanString fuel src qch (eso + 2) line (acc ++ utf8Encode 10)
      else if ech = 116 then scanString fuel src qch (eso + 2) line (acc ++ utf8Encode 9)
      else if ech = 118 then scanString fuel src qch (eso + 2) line (acc ++ utf8Encode 11)
      else if ech = 92 then scanString fuel src qch (eso + 2) line (acc ++ utf8Encode 92)
      else if ech = 39 then scanString fuel src qch (eso + 2) line (acc ++ utf8Encode 39)
      else if ech = 34 then scanString fuel src qch (eso + 2) line (acc ++ utf8Encode 34)
      else if ech = 13 then
        -- line continuation: CR optionally absorbing a following LF; the
        -- source falls through with wch still holding the initial space
        if byteAt src (eso + 2) = 10 then
          scanString fuel src qch (eso + 3) (line + 1) (acc ++ utf8Encode 32)
        else scanString fuel src qch (eso + 2) (line + 1) (acc ++ utf8Encode 32)
      else if ech = 10 then
        scanString fuel src qch (eso + 2) (line + 1) (acc ++ utf8Encode 32)
      else if ech = 120 ∨ ech = 88 then
        if ¬ isHex (byteAt src (eso + 2)) ∨ ¬ isHex (byteAt src (eso + 3)) then
          .fail "Invalid hex character sequence" line
        else
          scanString fuel src qch (eso + 4) line
            (acc ++ utf8Encode ((hexToInt (byteAt src (eso + 2)) <<< 4) |||
              hexToInt (byteAt src (eso + 3))))
      else if ech = 117 ∨ ech = 85 then
        if ¬ isHex (byteAt src (eso + 2)) ∨ ¬ isHex (byteAt src (eso + 3)) ∨
            ¬ isHex (byteAt src (eso + 4)) ∨ ¬ isHex (byteAt src (eso + 5)) then
          .fail "Invalid Unicode character sequence" line
        else
          scanString fuel src qch (eso + 6) line
            (acc ++ utf8Encode ((hexToInt (byteAt src (eso + 2)) <<< 12) |||
              (hexToInt (byteAt src (eso + 3)) <<< 8) |||
              (hexToInt (byteAt src (eso + 4)) <<< 4) |||
              hexToInt (byteAt src (eso + 5))))
      else if 48 ≤ ech ∧ ech ≤ 55 then
        -- up to three octal digits, value built MSB-first
        let o2 := byteAt src (eso + 2)
        if 48 ≤ o2 ∧ o2 ≤ 55 then
          let o3 := byteAt src (eso + 3)
          if 48 ≤ o3 ∧ o3 ≤ 55 then
            scanString fuel src qch (eso + 4) line
              (acc ++ utf8Encode ((((ech - 48) <<< 3 ||| (o2 - 48)) <<< 3) ||| (o3 - 48)))
          else
            scanString fuel src qch (eso + 3) line
              (acc ++ utf8Encode ((ech - 48) <<< 3 ||| (o2 - 48)))
        else
          scanString fuel src qch (eso + 2) line (acc ++ utf8Encode (ech - 48))
      else .fail "Invalid escape character sequence" line
    else scanString fuel src qch (eso + 1) line (acc ++ [ch])

/-- The regex-literal loop: `some` of the offset just past the closing `/`,
`none` when a line break or the end of input is reached first; a backslash
escapes the following character (unless it is the NUL sentinel). -/
def scanRegex (fuel : Nat) (src : Array Nat) (i : Nat) : Option Nat :=
  match fuel with
  | 0 => none
  | fuel + 1 =>
    let ch := byteAt src i
    if ch = 47 then some (i + 1)
    else if ch = 13 ∨ ch = 10 ∨ ch = 0 then none
    else if ch = 92 ∧ byteAt src (i + 1) ≠ 0 then scanRegex fuel src (i + 2)
    else scanRegex fuel src (i + 1)

/-- Result of the operator/punctuation switch: emitted token, the
compound-assignment sub-operator when the token is `assignop`, the offset just
past the operator, and the updated regex-valid flag (`=~` and `!~` re-arm). -/
structure OpScanOut where
  token : Tok
  assignOp : Option Tok := none
  eso : Nat
  regexValid : Bool
deriving DecidableEq, Repr

/-- The operator switch of `gesLex.lex` (lexer.go 473–687); `none` is the
fall-through where `token` stays 0 and the scanner fails.  `ch` of the source
is `byteAt src offset`, `nch` is `byteAt src (offset + 1)`. -/
def opScan (src : Array Nat) (offset : Nat) (rv : Bool) : Option OpScanOut :=
  if byteAt src offset = 123 then some ⟨.lc, none, offset + 1, rv⟩
  else if byteAt src offset = 125 then some ⟨.rc, none, offset + 1, rv⟩
  else if byteAt src offset = 40 then some ⟨.lp, none, offset + 1, rv⟩
  else if byteAt src offset = 41 then some ⟨.rp, none, offset + 1, rv⟩
  else if byteAt src offset = 91 then some ⟨.lb, none, offset + 1, rv⟩
  else if byteAt src offset = 93 then some ⟨.rb, none, offset + 1, rv⟩
  else if byteAt src offset = 46 then some ⟨.dot, none, offset + 1, rv⟩
  else if byteAt src offset = 59 then some ⟨.semi, none, offset + 1, rv⟩
  else if byteAt src offset = 44 then some ⟨.comma, none, offset + 1, rv⟩
  else if byteAt src offset = 126 then some ⟨.tilde, none, offset + 1, rv⟩
  else if byteAt src offset = 63 then some ⟨.qmark, none, offset + 1, rv⟩
  else if byteAt src offset = 58 then some ⟨.colon, none, offset + 1, rv⟩
  else if byteAt src offset = 60 then
    if byteAt src (offset + 1) = 61 then some ⟨.lteq, none, offset + 2, rv⟩
    else if byteAt src (offset + 1) = 60 then
      if byteAt src (offset + 2) = 61 then some ⟨.assignop, some .ltlt, offset + 3, rv⟩
      else some ⟨.ltlt, none, offset + 2, rv⟩
    else some ⟨.lt, none, offset + 1, rv⟩
  else if byteAt src offset = 62 then
    if byteAt src (offset + 1) = 61 then some ⟨.gteq, none, offset + 2, rv⟩
    else if byteAt src (offset + 1) = 62 then
      if byteAt src (offset + 2) = 62 then
        if byteAt src (offset + 3) = 61 then some ⟨.assignop, some .gtgtgt, offset + 4, rv⟩
        else some ⟨.gtgtgt, none, offset + 3, rv⟩
      else if byteAt src (offset + 2) = 61 then some ⟨.assignop, some .gtgt, offset + 3, rv⟩
      else some ⟨.gtgt, none, offset + 2, rv⟩
    else some ⟨.gt, none, offset + 1, rv⟩
  else if byteAt src offset = 61 then
    if byteAt src (offset + 1) = 61 then
      if byteAt src (offset + 2) = 61 then some ⟨.eqeqeq, none, offset + 3, rv⟩
      else some ⟨.eqeq, none, offset + 2, rv⟩
    else if byteAt src (offset + 1) = 126 then some ⟨.regeq, none, offset + 2, true⟩
    else some ⟨.assignop, none, offset + 1, rv⟩
  else if byteAt src offset = 33 then
    if byteAt src (offset + 1) = 61 then
      if byteAt src (offset + 2) = 61 then some ⟨.noteqeq, none, offset + 3, rv⟩
      else some ⟨.noteq, none, offset + 2, rv⟩
    else if byteAt src (offset + 1) = 126 then some ⟨.regnoteq, none, offset + 2, true⟩
    else some ⟨.not, none, offset + 1, rv⟩
  else if byteAt src offset = 43 then
    if byteAt src (offset + 1) = 43 then some ⟨.incr, none, offset + 2, rv⟩
    else if byteAt src (offset + 1) = 61 then some ⟨.assignop, some .add, offset + 2, rv⟩
    else some ⟨.add, none, offset + 1, rv⟩
  else if byteAt src offset = 45 then
    if byteAt src (offset + 1) = 45 then some ⟨.decr, none, offset + 2, rv⟩
    else if byteAt src (offset + 1) = 61 then some ⟨.assignop, some .sub, offset + 2, rv⟩
    else some ⟨.sub, none, offset + 1, rv⟩
  else if byteAt src offset = 42 then
    if byteAt src (offset + 1) = 61 then some ⟨.assignop, some .mult, offset + 2, rv⟩
    else some ⟨.mult, none, offset + 1, rv⟩
  else if byteAt src offset = 47 then
    if byteAt src (offset + 1) = 61 then some ⟨.assignop, some .div, offset + 2, rv⟩
    else some ⟨.div, none, offset + 1, rv⟩
  else if byteAt src offset = 37 then
    if byteAt src (offset + 1) = 61 then some ⟨.assignop, some .mod, offset + 2, rv⟩
    else some ⟨.mod, none, offset + 1, rv⟩
  else if byteAt src offset = 38 then
    if byteAt src (offset + 1) = 38 then some ⟨.andand, none, offset + 2, rv⟩
    else if byteAt src (offset + 1) = 61 then some ⟨.assignop, some .and, offset + 2, rv⟩
    else some ⟨.and, none, offset + 1, rv⟩
  else if byteAt src offset = 124 then
    if byteAt src (offset + 1) = 124 then some ⟨.oror, none, offset + 2, rv⟩
    else if byteAt src (offset + 1) = 61 then some ⟨.assignop, some .or, offset + 2, rv⟩
    else some ⟨.or, none, offset + 1, rv⟩
  else if byteAt src offset = 94 then
    if byteAt src (offset + 1) = 61 then some ⟨.assignop, some .xor, offset + 2, rv⟩
    else some ⟨.xor, none, offset + 1, rv⟩
  else none

/-- One scanner call's outcome: token, payload and updated state. -/
structure LexOut where
  tok : Tok
  lval : gesSymType
  state : gesLex
deriving DecidableEq, Repr

/-- One iteration of the `for true` loop of `gesLex.lex`: either a skip
(whitespace, line break, comment) continuing the loop, or a produced token. -/
inductive LexStepRes where
  | more : gesLex → LexStepRes
  | done : LexOut → LexStepRes
deriving DecidableEq, Repr

/-- The single-line comment skip (lexer.go 158–175), after the end-of-line
scan: absorb the LF of a CRLF, then consume the line break (if any) and count
it. -/
def lexLineGo (s : gesLex) (i : Nat) : gesLex :=
  if byteAt s.source i ≠ 0 then
    { s with offset := i + 1, lineNumber := s.lineNumber + 1 }
  else { s with offset := i }

/-- CRLF adjustment of the comment terminator (`if src[i]=CR and src[i+1]=LF
then advance to the LF`). -/
def crlfAdjust (src : Array Nat) (i : Nat) : Nat :=
  if byteAt src i = 13 ∧ byteAt src (i + 1) = 10 then i + 1 else i

/-- The single-line comment branch. -/
def lexLineComment (s : gesLex) : gesLex :=
  lexLineGo s (crlfAdjust s.source (eolScan (s.source.size + 1) s.source (s.offset + 2)))

/-- The multi-line comment branch epilogue (lexer.go 177–202): error on NUL,
otherwise step past the closing `*/` and continue. -/
def lexBlockGo (s : gesLex) (i line : Nat) : LexStepRes :=
  if byteAt s.source i = 0 then
    .done ⟨.err, {},
      { s with
        offset := i
        lineNumber := line
        error := some "Unterminated multi-line comment" }⟩
  else .more { s with offset := i + 2, lineNumber := line }

/-- The multi-line comment branch. -/
def lexBlockComment (s : gesLex) : LexStepRes :=
  lexBlockGo s (blockScan (s.source.size + 1) s.source (s.offset + 2) s.lineNumber).1
    (blockScan (s.source.size + 1) s.source (s.offset + 2) s.lineNumber).2

/-- The identifier/keyword branch (lexer.go 204–237): scan the identifier
run, look it up in the keyword table (the keyword `case` re-arms the
regex-valid flag), otherwise emit an identifier token with the captured
text. -/
def lexIdentGo (s : gesLex) (eso : Nat) : LexOut :=
  match keywordLookup (byteSlice s.source s.offset eso) keywords with
  | some t =>
    .mk t {}
      { s with
        offset := eso
        regexValid := if t = .kw "case" then true else s.regexValid }
  | none =>
    .mk .ident
      { parseType := .identifier
        identifier := bytesToString (byteSlice s.source s.offset eso) }
      { s with offset := eso }

/-- The identifier/keyword branch at the scanned run end. -/
def lexIdent (s : gesLex) : LexOut :=
  lexIdentGo s (identEnd (s.source.size + 1) s.source s.offset)

/-- The radix probe of the numeric branch (lexer.go 244–258): a leading `0`
probes for `0x`/`0X` (radix 16, cursor past the prefix) or a following digit
(radix 8); the result is the radix and the digit-scan start. -/
def numProbe (s : gesLex) : Nat × Nat :=
  if byteAt s.source s.offset = 48 then
    if byteAt s.source (s.offset + 1) = 120 ∨ byteAt s.source (s.offset + 1) = 88 then
      (16, s.offset + 2)
    else if 48 ≤ byteAt s.source (s.offset + 1) ∧ byteAt s.source (s.offset + 1) ≤ 57 then
      (8, s.offset + 1)
    else (10, s.offset + 1)
  else (10, s.offset)

/-- The numeric emit logic (lexer.go 293–329) with `off3` the slice start
after any rollback: radix 8/16 runs become Integer literals directly; a
decimal run not followed by `.`/`e`/`E` is parsed as a 64-bit integer
(failing on overflow); otherwise the float re-scan consumes
digits/`.`/`e`/`E`/`-` and the slice is parsed as a float (failing on invalid
syntax). -/
def lexNumberEmit (s : gesLex) (radix off3 eso u : Nat) : LexOut :=
  if radix = 8 ∨ radix = 16 then
    .mk .lit { parseType := .literal, literal := .integer (int64ofU64 u) }
      { s with offset := eso }
  else if byteAt s.source eso ≠ 46 ∧ byteAt s.source eso ≠ 101 ∧
      byteAt s.source eso ≠ 69 then
    match goParseInt10 (byteSlice s.source off3 eso) with
    | none =>
      .mk .err {}
        { s with
          offset := off3
          error := some "Invalid literal integer: value out of range" }
    | some v =>
      .mk .lit { parseType := .literal, literal := .integer v } { s with offset := eso }
  else
    if goFloatValid (byteSlice s.source off3 (floatScan (s.source.size + 1) s.source eso)) then
      .mk .lit
        { parseType := .literal
          literal := .number (bytesToString
            (byteSlice s.source off3 (floatScan (s.source.size + 1) s.source eso))) }
        { s with offset := floatScan (s.source.size + 1) s.source eso }
    else
      .mk .err {}
        { s with
          offset := off3
          error := some ("Invalid literal float: invalid syntax: " ++
            bytesToString
              (byteSlice s.source off3 (floatScan (s.source.size + 1) s.source eso))) }

/-- The numeric branch after the digit scan (rollback handling, lexer.go
280–291): a hex prefix without hex digits rolls back to the bare `0`
(re-parsing the slice `src[off2-2 : off2-1] = "0"` on the integer path, with
the cursor left before the `x`); a consumed leading `0` with no further
digits steps the slice start back onto the `0`; a `.`-led numeral at buffer
offset 0 makes the source compute slice start -1 and panic. -/
def lexNumberGo (s : gesLex) (radix off2 eso u : Nat) : LexOut :=
  if eso = off2 ∧ radix = 16 then
    match goParseInt10 (byteSlice s.source (off2 - 2) (eso - 1)) with
    | none =>
      .mk .err {}
        { s with
          offset := off2 - 2
          error := some "Invalid literal integer: value out of range" }
    | some v =>
      .mk .lit { parseType := .literal, literal := .integer v }
        { s with offset := eso - 1 }
  else if eso = off2 ∧ radix ≠ 16 ∧ off2 = 0 then .mk .goPanic {} s
  else if eso = off2 ∧ radix ≠ 16 then lexNumberEmit s radix (off2 - 1) eso u
  else lexNumberEmit s radix off2 eso u

/-- The numeric-literal branch (lexer.go 239–330). -/
def lexNumber (s : gesLex) : LexOut :=
  lexNumberGo s (numProbe s).1 (numProbe s).2
    (scanDigits (s.source.size + 1) s.source (numProbe s).1 (numProbe s).2 0).1
    (scanDigits (s.source.size + 1) s.source (numProbe s).1 (numProbe s).2 0).2

/-- The string-literal branch (lexer.go 332–446). -/
def lexString (s : gesLex) : LexOut :=
  match scanString (s.source.size + 1) s.source (byteAt s.source s.offset) (s.offset + 1)
      s.lineNumber [] with
  | .ok eso line bytes =>
    .mk .lit { parseType := .literal, literal := .stringValue bytes }
      { s with offset := eso, lineNumber := line }
  | .fail msg line =>
    .mk .err {} { s with lineNumber := line, error := some msg }

/-- The regex-literal branch (lexer.go 448–471). -/
def lexRegexLit (s : gesLex) : LexOut :=
  match scanRegex (s.source.size + 1) s.source (s.offset + 1) with
  | some eso => .mk .regexp { parseType := .regexp } { s with offset := eso }
  | none =>
    .mk .err {}
      { s with
        offset := s.offset + 1
        error := some "Unterminated regex pattern" }

/-- The operator switch dispatch (lexer.go 473–687): a recognized operator
updates the cursor and the regex-valid flag; the fall-through returns the
error token with the state untouched (and, notably, no recorded message). -/
def lexOper (s : gesLex) : LexOut :=
  match opScan s.source s.offset s.regexValid with
  | some o =>
    .mk o.token { assignOp := o.assignOp }
      { s with offset := o.eso, regexValid := o.regexValid }
  | none => .mk .err {} s

/-- The body of the `for true` loop of `gesLex.lex` (lexer.go 133–691),
branch for branch in source order.  The CRLF handling of the source (shift to
the LF, then the shared line-break branch) is rendered as the two merged
cases `CR LF` and bare `CR`/`LF`. -/
def lexStep (s : gesLex) : LexStepRes :=
  if byteAt s.source s.offset = 0 then .done ⟨.eof, {}, s⟩
  else if byteAt s.source s.offset = 32 ∨ byteAt s.source s.offset = 9 then
    .more { s with offset := s.offset + 1 }
  else if byteAt s.source s.offset = 13 ∧ byteAt s.source (s.offset + 1) = 10 then
    .more { s with offset := s.offset + 2, lineNumber := s.lineNumber + 1 }
  else if byteAt s.source s.offset = 13 ∨ byteAt s.source s.offset = 10 then
    .more { s with offset := s.offset + 1, lineNumber := s.lineNumber + 1 }
  else if byteAt s.source s.offset = 47 ∧ byteAt s.source (s.offset + 1) = 47 then
    .more (lexLineComment s)
  else if byteAt s.source s.offset = 47 ∧ byteAt s.source (s.offset + 1) = 42 then
    lexBlockComment s
  else if identStartByte (byteAt s.source s.offset) then .done (lexIdent s)
  else if (48 ≤ byteAt s.source s.offset ∧ byteAt s.source s.offset ≤ 57) ∨
      (byteAt s.source s.offset = 46 ∧ 48 ≤ byteAt s.source (s.offset + 1) ∧
        byteAt s.source (s.offset + 1) ≤ 57) then
    .done (lexNumber s)
  else if byteAt s.source s.offset = 34 ∨ byteAt s.source s.offset = 39 then
    .done (lexString s)
  else if s.regexValid ∧ byteAt s.source s.offset = 47 then .done (lexRegexLit s)
  else .done (lexOper s)

/-- The `for true` loop of `gesLex.lex`, with fuel bounding the number of
skip iterations (each iteration strictly advances the cursor, so the callers'
fuel `source.size + 1` is never exhausted). -/
def lexLoop : Nat → gesLex → LexOut
  | 0, s => ⟨.eof, {}, s⟩
  | fuel + 1, s =>
    match lexStep s with
    | .more s' => lexLoop fuel s'
    | .done out => out

/-- `gesLex.lex`: produce the next raw token. -/
def gesLex.lex (s : gesLex) : LexOut :=
  lexLoop (s.source.size + 1) s

/-- `gesLex.Lex`: the exposed lexer, consuming the regex-valid flag that was
set before this token (unconditionally, even when the token just produced
re-armed it). -/
def gesLex.Lex (s : gesLex) : LexOut :=
  let origRegValid := s.regexValid
  let r := gesLex.lex s
  if origRegValid then { r with state := { r.state with regexValid := false } } else r

/-- The error surfacing of `Parse` (compiler.go 23–32): the scanner's recorded
message, or the generic message when none was set. -/
def parseFailureMessage (lexError : Option String) : String :=
  match lexError with
  | some m => m
  | none => "Unknown parsing error"

/-! ## Engine: process, stack and opcodes -/

/-- `Process`: the execution context.  The source's `body`/`pc` fields drive
the straight-line loop in `Function.Exec` (rendered below as structural
recursion over the remaining instructions, since no opcode of this core
touches the program counter); the stack slots are pointers in Go, hence
`Option DataType` with `none` for a nil slot. -/
structure Process where
  stack : Array (Option DataType)
  sp : Int
deriving DecidableEq, Repr

/-- Outcome of one opcode behaviour: an updated process, a returned error, or
a Go runtime panic (the source's unchecked stack accesses). -/
inductive StepRes where
  | ok : Process → StepRes
  | fail : String → StepRes
  | goPanic : StepRes
deriving DecidableEq, Repr

/-- `Process.push` (source: `prc.stack[prc.sp] = val; prc.sp++` with a `TODO`
for resize/overflow): the raw indexed write panics outside the allocated
stack. -/
def Process.push (prc : Process) (val : Option DataType) : StepRes :=
  if 0 ≤ prc.sp ∧ prc.sp < (prc.stack.size : Int) then
    .ok { stack := prc.stack.setD prc.sp.toNat val, sp := prc.sp + 1 }
  else .goPanic

/-- Result of `Process.pop`/`Process.peek`: the slot (a possibly-nil pointer)
and the updated process, or a panic for the unchecked out-of-range read. -/
inductive PopRes where
  | ok : Option DataType → Process → PopRes
  | goPanic : PopRes
deriving DecidableEq, Repr

/-- `Process.peek` (source: `return prc.stack[prc.sp-1], nil` with a `TODO`
for underflow). -/
def Process.peek (prc : Process) : PopRes :=
  if 0 ≤ prc.sp - 1 ∧ prc.sp - 1 < (prc.stack.size : Int) then
    .ok (prc.stack.getD (prc.sp - 1).toNat none) prc
  else .goPanic

/-- `Process.pop` (source: `prc.sp--; return prc.stack[prc.sp], nil` with a
`TODO` for underflow). -/
def Process.pop (prc : Process) : PopRes :=
  if 0 ≤ prc.sp - 1 ∧ prc.sp - 1 < (prc.stack.size : Int) then
    .ok (prc.stack.getD (prc.sp - 1).toNat none) { prc with sp := prc.sp - 1 }
  else .goPanic

/-- `OpCodeFn`: an opcode behaviour.  In Go it receives the `Process` and the
`OpCode` itself; the behaviours of this core read only the stack and the
opcode's `OpData`, which is what is passed here. -/
def OpCodeFn : Type := Process → Option DataType → StepRes

/-- `OpCode`: line number, behaviour, opaque operand. -/
structure OpCode where
  lineNumber : Int := 0
  execFn : OpCodeFn
  opData : Option DataType := none

/-- `Function`: named, ordered instruction sequence. -/
structure Function where
  name : String := ""
  code : List OpCode

/-- `PushLiteralValue` (operations.go): pushes `op.OpData.(*types.DataType)`;
the type assertion panics when the operand is absent. -/
def PushLiteralValue : OpCodeFn := fun prc od =>
  match od with
  | some v => prc.push (some v)
  | none => .goPanic

/-- `AdditionOperation` (operations.go 41–66): pops the first operand (`left`,
the stack top) then the second (`right`); dereferencing a nil slot panics;
Integer+Integer pushes the wrapping 64-bit sum, every other variant pair
pushes Undefined; the function never returns a non-nil error (the pop error
branches of the source are dead, since `pop` only ever returns a nil
error). -/
def AdditionOperation : OpCodeFn := fun prc _ =>
  match prc.pop with
  | .goPanic => .goPanic
  | .ok leftSlot prc1 =>
    match prc1.pop with
    | .goPanic => .goPanic
    | .ok rightSlot prc2 =>
      match leftSlot with
      | none => .goPanic
      | some left =>
        match left with
        | .integer a =>
          match rightSlot with
          | none => .goPanic
          | some (.integer b) => prc2.push (some (.integer (wrap64 (a + b))))
          | some _ => prc2.push (some .undefined)
        | _ => prc2.push (some .undefined)

/-- Outcome of `Function.Exec`: the result value, a surfaced failure, or a Go
runtime panic. -/
inductive ExecOutcome where
  | value : DataType → ExecOutcome
  | fail : String → ExecOutcome
  | goPanic : ExecOutcome
deriving DecidableEq, Repr

/-- Result of running an instruction sequence. -/
inductive RunRes where
  | ok : Process → RunRes
  | fail : String → RunRes
  | goPanic : RunRes
deriving DecidableEq, Repr

/-- The execution loop of `Function.Exec`: run each instruction in order,
advancing the program counter by one (the head of the remaining sequence);
abort on a returned failure or a panic. -/
def runCode : List OpCode → Process → RunRes
  | [], prc => .ok prc
  | op :: rest, prc =>
    match op.execFn prc op.opData with
    | .ok prc' => runCode rest prc'
    | .fail e => .fail e
    | .goPanic => .goPanic

/-- The fresh 16-slot stack of `Function.Exec`
(`make([]*types.DataType, 16)`, `sp = 0`). -/
def initProcess : Process :=
  { stack := Array.mkArray 16 none, sp := 0 }

/-- The epilogue of `Function.Exec`: the dereferenced stack top if the stack
is non-empty, else the Undefined value (`*prc.stack[prc.sp-1]` panics on an
out-of-range index or a nil slot). -/
def stackTopValue (prc : Process) : ExecOutcome :=
  if 0 < prc.sp then
    if prc.sp - 1 < (prc.stack.size : Int) then
      match prc.stack.getD (prc.sp - 1).toNat none with
      | some v => .value v
      | none => .goPanic
    else .goPanic
  else .value .undefined

/-- `Function.Exec`: initialize a fresh process, run the instruction
sequence, and return the stack-top value (or Undefined). -/
def Function.Exec (f : Function) : ExecOutcome :=
  match runCode f.code initProcess with
  | .ok prc => stackTopValue prc
  | .fail e => .fail e
  | .goPanic => .goPanic

/-! ## Test fixtures used by the claims -/

/-- A push-literal instruction carrying an Integer operand. -/
def pushIntOp (n : Int) : OpCode :=
  { execFn := PushLiteralValue, opData := some (.integer n) }

/-- The addition instruction. -/
def additionOp : OpCode :=
  { execFn := AdditionOperation }

/-- Seventeen push-literal instructions: one more than the allocated stack. -/
def seventeenPushes : Function :=
  { name := "overflow", code := List.replicate 17 (pushIntOp 1) }

/-- Sixteen push-literal instructions: exactly the allocated stack. -/
def sixteenPushes : Function :=
  { name := "full", code := List.replicate 16 (pushIntOp 1) }

/-- An addition with an empty operand stack. -/
def additionOnEmpty : Function :=
  { name := "underflow", code := [additionOp] }

/-- An opcode behaviour that always returns a failure, exercising the abort
path of the execution loop (any behaviour of the open `OpCodeFn` type may
fail; the two behaviours of this core happen never to). -/
def alwaysFailFn : OpCodeFn := fun _ _ => .fail "forced failure"

/-- An instruction that always fails. -/
def alwaysFailOp : OpCode :=
  { execFn := alwaysFailFn }

/-- The two-level variant dispatch table of `AdditionOperation`, with the
first (top-of-stack) operand selecting the outer level: Integer+Integer is
the wrapping 64-bit sum, everything else is Undefined. -/
def additionResult (v1 v2 : DataType) : DataType :=
  match v1, v2 with
  | .integer a, .integer b => .integer (wrap64 (a + b))
  | _, _ => .undefined

/-- Tokens that re-arm the regex-valid flag when produced: the keyword
`case`, `=~` and `!~`. -/
def armsRegex (t : Tok) : Bool :=
  t = .kw "case" ∨ t = .regeq ∨ t = .regnoteq

/-- Bytes on which the scanner recognizes a token (or skippable input): the
complement is the fall-through of the operator switch, which fails without
recording a message. -/
def tokenStartByte (ch : Nat) : Bool :=
  ch = 0 ∨ ch = 32 ∨ ch = 9 ∨ ch = 13 ∨ ch = 10 ∨
  identStartByte ch ∨ (48 ≤ ch ∧ ch ≤ 57) ∨ ch = 34 ∨ ch = 39 ∨
  ch = 123 ∨ ch = 125 ∨ ch = 40 ∨ ch = 41 ∨ ch = 91 ∨ ch = 93 ∨ ch = 46 ∨
  ch = 59 ∨ ch = 44 ∨ ch = 126 ∨ ch = 63 ∨ ch = 58 ∨ ch = 60 ∨ ch = 62 ∨
  ch = 61 ∨ ch = 33 ∨ ch = 43 ∨ ch = 45 ∨ ch = 42 ∨ ch = 47 ∨ ch = 37 ∨
  ch = 38 ∨ ch = 124 ∨ ch = 94

/-- Bytes handled by the operator/punctuation switch (its non-`default`
cases). -/
def opLeadByte (ch : Nat) : Bool :=
  ch = 123 ∨ ch = 125 ∨ ch = 40 ∨ ch = 41 ∨ ch = 91 ∨ ch = 93 ∨ ch = 46 ∨
  ch = 59 ∨ ch = 44 ∨ ch = 126 ∨ ch = 63 ∨ ch = 58 ∨ ch = 60 ∨ ch = 62 ∨
  ch = 61 ∨ ch = 33 ∨ ch = 43 ∨ ch = 45 ∨ ch = 42 ∨ ch = 47 ∨ ch = 37 ∨
  ch = 38 ∨ ch = 124 ∨ ch = 94

/-- Big-endian base-16 interpretation of a hex digit byte run. -/
def hexInterp (ds : List Nat) : Nat :=
  ds.foldl (fun a d => 16 * a + hexToInt d) 0

/-! ## Theorems

General helper lemmas first, then one theorem per claim (with its
counterexample and witness where applicable). -/

/-- Executing a concatenated instruction sequence runs the first part, and —
only when it fully succeeds — continues with the second from the resulting
process state. -/
theorem runCode_append (c1 c2 : List OpCode) (prc : Process) :
    runCode (c1 ++ c2) prc =
      match runCode c1 prc with
      | .ok prc' => runCode c2 prc'
      | .fail e => .fail e
      | .goPanic => .goPanic := by
  induction c1 generalizing prc with
  | nil => rfl
  | cons op rest ih =>
    simp only [List.cons_append, runCode]
    cases op.execFn prc op.opData <;> simp [ih]

/-- C5: for every Function whose instructions all succeed, `execute` runs each
instruction exactly once in sequence (the loop is exactly the left-to-right
fold over the instruction list, and composes over concatenation), and on
falling off the end returns the stack-top value when the operand stack is
non-empty and the Undefined value when it is empty; in particular an empty
instruction sequence yields Undefined. -/
theorem exec_sequential_final :
    (∀ (c1 c2 : List OpCode) (prc : Process),
      runCode (c1 ++ c2) prc =
        match runCode c1 prc with
        | .ok prc' => runCode c2 prc'
        | .fail e => .fail e
        | .goPanic => .goPanic) ∧
    (∀ (f : Function) (prc' : Process), runCode f.code initProcess = .ok prc' →
      Function.Exec f = stackTopValue prc' ∧
      (prc'.sp ≤ 0 → Function.Exec f = .value .undefined) ∧
      (∀ v : DataType, 0 < prc'.sp →
        prc'.stack.getD (prc'.sp - 1).toNat none = some v →
          Function.Exec f = .value v)) ∧
    (∀ nm : String, Function.Exec { name := nm, code := [] } = .value .undefined) := by
  refine ⟨runCode_append, ?_, ?_⟩
  · intro f prc' h
    have hexec : Function.Exec f = stackTopValue prc' := by
      unfold Function.Exec
      rw [h]
    refine ⟨hexec, ?_, ?_⟩
    · intro hsp
      rw [hexec]
      unfold stackTopValue
      rw [if_neg (by omega)]
    · intro v hsp hv
      have hlt : (prc'.sp - 1).toNat < prc'.stack.size := by
        by_contra hge
        rw [Array.getD, dif_neg hge] at hv
        exact Option.noConfusion hv
      rw [hexec]
      unfold stackTopValue
      rw [if_pos hsp, if_pos (by omega), hv]
  · intro nm
    rfl

/-- C5 witness: a concrete one-instruction function, instantiating the
success hypothesis. -/
theorem exec_sequential_final_witness :
    Function.Exec { name := "w5", code := [pushIntOp 1] } = .value (.integer 1) := by
  have h := (exec_sequential_final.2.1 { name := "w5", code := [pushIntOp 1] }
    { stack := (Array.mkArray 16 (none : Option DataType)).setD 0 (some (.integer 1))
      sp := 1 } (by decide)).2.2 (.integer 1) (by decide) (by decide)
  exact h

/-- C6: if any instruction's behaviour returns a failure, execution aborts at
that instruction — the outcome is that failure, no result value is produced,
and the instructions after the failing one (arbitrary `post`) never run. -/
theorem exec_abort_on_failure (nm : String) (pre post : List OpCode) (op : OpCode)
    (e : String) (prc' : Process)
    (h1 : runCode pre initProcess = .ok prc')
    (h2 : op.execFn prc' op.opData = .fail e) :
    Function.Exec { name := nm, code := pre ++ op :: post } = .fail e := by
  unfold Function.Exec
  rw [runCode_append, h1]
  simp only [runCode, h2]

/-- C6 witness: a concrete always-failing instruction aborts execution with
its failure. -/
theorem exec_abort_on_failure_witness :
    Function.Exec { name := "w6", code := [alwaysFailOp] } = .fail "forced failure" := by
  have h := exec_abort_on_failure "w6" [] [] alwaysFailOp "forced failure"
    initProcess rfl rfl
  exact h

/-- C4: the addition instruction pops the stack top as its first operand
(`left` in the source) and the next-from-top as its second; two Integers push
the wrapping 64-bit signed sum, every other variant pair pushes Undefined
(see `additionResult`), and in all cases the instruction succeeds — no
returned error. -/
theorem addition_operand_semantics (prc : Process) (v1 v2 : DataType)
    (od : Option DataType)
    (hsp : 2 ≤ prc.sp) (hsz : prc.sp ≤ (prc.stack.size : Int))
    (h1 : prc.stack.getD (prc.sp - 1).toNat none = some v1)
    (h2 : prc.stack.getD (prc.sp - 2).toNat none = some v2) :
    AdditionOperation prc od =
      .ok { stack := prc.stack.setD (prc.sp - 2).toNat (some (additionResult v1 v2))
            sp := prc.sp - 1 } := by
  have hc1 : 0 ≤ prc.sp - 1 ∧ prc.sp - 1 < (prc.stack.size : Int) := ⟨by omega, by omega⟩
  unfold AdditionOperation Process.pop
  rw [if_pos hc1, h1]
  simp only
  have hc2 : 0 ≤ prc.sp - 1 - 1 ∧ prc.sp - 1 - 1 < (prc.stack.size : Int) :=
    ⟨by omega, by omega⟩
  rw [if_pos hc2]
  have hidx : prc.sp - 1 - 1 = prc.sp - 2 := by omega
  rw [hidx, h2]
  simp only
  have hpush : ∀ w : DataType,
      Process.push { stack := prc.stack, sp := prc.sp - 2 } (some w) =
        .ok { stack := prc.stack.setD (prc.sp - 2).toNat (some w), sp := prc.sp - 1 } := by
    intro w
    have hcnd : (0 : Int) ≤ prc.sp - 2 ∧ prc.sp - 2 < (prc.stack.size : Int) :=
      ⟨by omega, by omega⟩
    unfold Process.push
    rw [if_pos hcnd]
    have h11 : prc.sp - 2 + 1 = prc.sp - 1 := by omega
    rw [h11]
  cases v1 <;> cases v2 <;> simp only [hpush, additionResult]

/-- C4 witness: stack `[2, 3]` with 3 on top — the first operand is 3, the
second 2, and the instruction pushes the sum 5 without an error. -/
theorem addition_operand_semantics_witness :
    AdditionOperation { stack := #[some (.integer 2), some (.integer 3)], sp := 2 } none =
      .ok { stack := #[some (.integer 5), some (.integer 3)], sp := 1 } := by
  have h := addition_operand_semantics
    { stack := #[some (.integer 2), some (.integer 3)], sp := 2 }
    (.integer 3) (.integer 2) none (by decide) (by decide) (by decide) (by decide)
  rw [h]
  decide

/-- C3: the claim states the required stack discipline (growable stack, or
underflow/overflow error conditions).  The source instead performs unchecked
indexed accesses (marked `TODO`): on the fixed 16-slot stack sixteen pushes
succeed, a seventeenth push writes `stack[16]` and panics, and an addition on
an empty stack reads `stack[-1]` and panics — Go runtime out-of-range
accesses, not error results. -/
theorem stack_bounds_unchecked :
    Function.Exec sixteenPushes = .value (.integer 1) ∧
    Function.Exec seventeenPushes = .goPanic ∧
    Function.Exec additionOnEmpty = .goPanic :=
  ⟨by decide, by decide, by decide⟩

/-- C10: the floating-literal re-scan consumes every following `-`, so the
input `1.0-2` is scanned as the single slice `1.0-2`, which is not a valid
float: the scanner returns the error token with the invalid-literal-float
message (whose text records the consumed slice) instead of producing Number
1.0, a subtraction operator and Integer 2. -/
theorem float_rescan_consumes_minus :
    (gesLex.lex (newLexer "1.0-2")).tok = .err ∧
    (gesLex.lex (newLexer "1.0-2")).state.error =
      some "Invalid literal float: invalid syntax: 1.0-2" := by
  refine ⟨by decide, by decide⟩

/-- C1 counterexample: in `'a\⏎b'` the escaped line break contributes one
space character (byte 32) to the decoded value — the source appends the
escape accumulator `wch`, initialized to a space, after the line-continuation
case — so the decoded value is `a b` (three bytes), not `ab`; the line
counter does increment by one. -/
theorem escaped_newline_counterexample :
    (gesLex.lex (newLexer "'a\\\nb'")).tok = .lit ∧
    (gesLex.lex (newLexer "'a\\\nb'")).lval.literal = .stringValue [97, 32, 98] ∧
    (gesLex.lex (newLexer "'a\\\nb'")).state.lineNumber = 2 ∧
    DataType.stringValue [97, 32, 98] ≠ .stringValue [97, 98] := by
  refine ⟨by decide, by decide, by decide, by decide⟩

/-- C1 (amended): an escaped line break inside a string literal — backslash
followed by CR, CR LF, or bare LF — contributes exactly one space character
(byte 32) to the decoded value and increments the line counter by exactly
one, with the scan continuing just past the line break. -/
theorem escaped_line_break_one_space (fuel : Nat) (src : Array Nat)
    (qch eso line : Nat) (acc : List Nat)
    (hq : qch = 34 ∨ qch = 39)
    (hb : byteAt src eso = 92)
    (hn : byteAt src (eso + 1) = 13 ∨ byteAt src (eso + 1) = 10) :
    scanString (fuel + 1) src qch eso line acc =
      scanString fuel src qch
        (if byteAt src (eso + 1) = 13 ∧ byteAt src (eso + 2) = 10 then eso + 3 else eso + 2)
        (line + 1) (acc ++ [32]) := by
  have hqne : ¬ (92 = qch) := by rcases hq with rfl | rfl <;> decide
  rcases hn with h | h
  · by_cases h2 : byteAt src (eso + 2) = 10 <;>
      simp [scanString, hb, h, h2, hqne, utf8Encode]
  · have h13 : ¬ (byteAt src (eso + 1) = 13) := by rw [h]; decide
    simp [scanString, hb, h, h13, hqne, utf8Encode]

/-- C1 witness: the escaped LF of `'a\⏎b'` (backslash at offset 2) makes one
string-scan step that appends exactly the space byte and bumps the line. -/
theorem escaped_line_break_one_space_witness :
    scanString 8 (newLexer "'a\\\nb'").source 39 2 1 [97] =
      scanString 7 (newLexer "'a\\\nb'").source 39 4 2 [97, 32] := by
  have h := escaped_line_break_one_space 7 (newLexer "'a\\\nb'").source 39 2 1 [97]
    (by decide) (by decide) (by decide)
  rw [h]
  decide

/-- Every operator token's effect on the regex-valid flag: the produced flag
is the incoming one re-armed exactly by `=~`/`!~`; and the switch never
produces the error token or a keyword token. -/
theorem opScan_some_props {src : Array Nat} {off : Nat} {rv : Bool} {o : OpScanOut}
    (h : opScan src off rv = some o) :
    o.regexValid = (rv || armsRegex o.token) ∧ o.token ≠ .err ∧
      ∀ w : String, o.token ≠ .kw w := by
  delta opScan at h
  by_cases c1 : byteAt src off = 123
  · rw [if_pos c1] at h
    injection h with h; subst h; exact ⟨by simp [armsRegex], fun hcc => Tok.noConfusion hcc, fun w hcc => Tok.noConfusion hcc⟩
  · rw [if_neg c1] at h
    by_cases c2 : byteAt src off = 125
    · rw [if_pos c2] at h
      injection h with h; subst h; exact ⟨by simp [armsRegex], fun hcc => Tok.noConfusion hcc, fun w hcc => Tok.noConfusion hcc⟩
    · rw [if_neg c2] at h
      by_cases c3 : byteAt src off = 40
      · rw [if_pos c3] at h
        injection h with h; subst h; exact ⟨by simp [armsRegex], fun hcc => Tok.noConfusion hcc, fun w hcc => Tok.noConfusion hcc⟩
      · rw [if_neg c3] at h
        by_cases c4 : byteAt src off = 41
        · rw [if_pos c4] at h
          injection h with h; subst h; exact ⟨by simp [armsRegex], fun hcc => Tok.noConfusion hcc, fun w hcc => Tok.noConfusion hcc⟩
        · rw [if_neg c4] at h
          by_cases c5 : byteAt src off = 91
          · rw [if_pos c5] at h
            injection h with h; subst h; exact ⟨by simp [armsRegex], fun hcc => Tok.noConfusion hcc, fun w hcc => Tok.noConfusion hcc⟩
          · rw [if_neg c5] at h
            by_cases c6 : byteAt src off = 93
            · rw [if_pos c6] at h
              injection h with h; subst h; exact ⟨by simp [armsRegex], fun hcc => Tok.noConfusion hcc, fun w hcc => Tok.noConfusion hcc⟩
            · rw [if_neg c6] at h
              by_cases c7 : byteAt src off = 46
              · rw [if_pos c7] at h
                injection h with h; subst h; exact ⟨by simp [armsRegex], fun hcc => Tok.noConfusion hcc, fun w hcc => Tok.noConfusion hcc⟩
              · rw [if_neg c7] at h
                by_cases c8 : byteAt src off = 59
                · rw [if_pos c8] at h
                  injection h with h; subst h; exact ⟨by simp [armsRegex], fun hcc => Tok.noConfusion hcc, fun w hcc => Tok.noConfusion hcc⟩
                · rw [if_neg c8] at h
                  by_cases c9 : byteAt src off = 44
                  · rw [if_pos c9] at h
                    injection h with h; subst h; exact ⟨by simp [armsRegex], fun hcc => Tok.noConfusion hcc, fun w hcc => Tok.noConfusion hcc⟩
                  · rw [if_neg c9] at h
                    by_cases c10 : byteAt src off = 126
                    · rw [if_pos c10] at h
                      injection h with h; subst h; exact ⟨by simp [armsRegex], fun hcc => Tok.noConfusion hcc, fun w hcc => Tok.noConfusion hcc⟩
                    · rw [if_neg c10] at h
                      by_cases c11 : byteAt src off = 63
                      · rw [if_pos c11] at h
                        injection h with h; subst h; exact ⟨by simp [armsRegex], fun hcc => Tok.noConfusion hcc, fun w hcc => Tok.noConfusion hcc⟩
                      · rw [if_neg c11] at h
                        by_cases c12 : byteAt src off = 58
                        · rw [if_pos c12] at h
                          injection h with h; subst h; exact ⟨by simp [armsRegex], fun hcc => Tok.noConfusion hcc, fun w hcc => Tok.noConfusion hcc⟩
                        · rw [if_neg c12] at h
                          by_cases c13 : byteAt src off = 60
                          · rw [if_pos c13] at h
                            by_cases c14 : byteAt src (off + 1) = 61
                            · rw [if_pos c14] at h
                              injection h with h; subst h; exact ⟨by simp [armsRegex], fun hcc => Tok.noConfusion hcc, fun w hcc => Tok.noConfusion hcc⟩
                            · rw [if_neg c14] at h
                              by_cases c15 : byteAt src (off + 1) = 60
                              · rw [if_pos c15] at h
                                by_cases c16 : byteAt src (off + 2) = 61
                                · rw [if_pos c16] at h
                                  injection h with h; subst h; exact ⟨by simp [armsRegex], fun hcc => Tok.noConfusion hcc, fun w hcc => Tok.noConfusion hcc⟩
                                · rw [if_neg c16] at h
                                  injection h with h; subst h; exact ⟨by simp [armsRegex], fun hcc => Tok.noConfusion hcc, fun w hcc => Tok.noConfusion hcc⟩
                              · rw [if_neg c15] at h
                                injection h with h; subst h; exact ⟨by simp [armsRegex], fun hcc => Tok.noConfusion hcc, fun w hcc => Tok.noConfusion hcc⟩
                          · rw [if_neg c13] at h
                            by_cases c17 : byteAt src off = 62
                            · rw [if_pos c17] at h
                              by_cases c18 : byteAt src (off + 1) = 61
                              · rw [if_pos c18] at h
                                injection h with h; subst h; exact ⟨by simp [armsRegex], fun hcc => Tok.noConfusion hcc, fun w hcc => Tok.noConfusion hcc⟩
                              · rw [if_neg c18] at h
                                by_cases c19 : byteAt src (off + 1) = 62
                                · rw [if_pos c19] at h
                                  by_cases c20 : byteAt src (off + 2) = 62
                                  · rw [if_pos c20] at h
                                    by_cases c21 : byteAt src (off + 3) = 61
                                    · rw [if_pos c21] at h
                                      injection h with h; subst h; exact ⟨by simp [armsRegex], fun hcc => Tok.noConfusion hcc, fun w hcc => Tok.noConfusion hcc⟩
                                    · rw [if_neg c21] at h
                                      injection h with h; subst h; exact ⟨by simp [armsRegex], fun hcc => Tok.noConfusion hcc, fun w hcc => Tok.noConfusion hcc⟩
                                  · rw [if_neg c20] at h
                                    by_cases c22 : byteAt src (off + 2) = 61
                                    · rw [if_pos c22] at h
                                      injection h with h; subst h; exact ⟨by simp [armsRegex], fun hcc => Tok.noConfusion hcc, fun w hcc => Tok.noConfusion hcc⟩
                                    · rw [if_neg c22] at h
                                      injection h with h; subst h; exact ⟨by simp [armsRegex], fun hcc => Tok.noConfusion hcc, fun w hcc => Tok.noConfusion hcc⟩
                                · rw [if_neg c19] at h
                                  injection h with h; subst h; exact ⟨by simp [armsRegex], fun hcc => Tok.noConfusion hcc, fun w hcc => Tok.noConfusion hcc⟩
                            · rw [if_neg c17] at h
                              by_cases c23 : byteAt src off = 61
                              · rw [if_pos c23] at h
                                by_cases c24 : byteAt src (off + 1) = 61
                                · rw [if_pos c24] at h
                                  by_cases c25 : byteAt src (off + 2) = 61
                                  · rw [if_pos c25] at h
                                    injection h with h; subst h; exact ⟨by simp [armsRegex], fun hcc => Tok.noConfusion hcc, fun w hcc => Tok.noConfusion hcc⟩
                                  · rw [if_neg c25] at h
                                    injection h with h; subst h; exact ⟨by simp [armsRegex], fun hcc => Tok.noConfusion hcc, fun w hcc => Tok.noConfusion hcc⟩
                                · rw [if_neg c24] at h
                                  by_cases c26 : byteAt src (off + 1) = 126
                                  · rw [if_pos c26] at h
                                    injection h with h; subst h; exact ⟨by simp [armsRegex], fun hcc => Tok.noConfusion hcc, fun w hcc => Tok.noConfusion hcc⟩
                                  · rw [if_neg c26] at h
                                    injection h with h; subst h; exact ⟨by simp [armsRegex], fun hcc => Tok.noConfusion hcc, fun w hcc => Tok.noConfusion hcc⟩
                              · rw [if_neg c23] at h
                                by_cases c27 : byteAt src off = 33
                                · rw [if_pos c27] at h
                                  by_cases c28 : byteAt src (off + 1) = 61
                                  · rw [if_pos c28] at h
                                    by_cases c29 : byteAt src (off + 2) = 61
                                    · rw [if_pos c29] at h
                                      injection h with h; subst h; exact ⟨by simp [armsRegex], fun hcc => Tok.noConfusion hcc, fun w hcc => Tok.noConfusion hcc⟩
                                    · rw [if_neg c29] at h
                                      injection h with h; subst h; exact ⟨by simp [armsRegex], fun hcc => Tok.noConfusion hcc, fun w hcc => Tok.noConfusion hcc⟩
                                  · rw [if_neg c28] at h
                                    by_cases c30 : byteAt src (off + 1) = 126
                                    · rw [if_pos c30] at h
                                      injection h with h; subst h; exact ⟨by simp [armsRegex], fun hcc => Tok.noConfusion hcc, fun w hcc => Tok.noConfusion hcc⟩
                                    · rw [if_neg c30] at h
                                      injection h with h; subst h; exact ⟨by simp [armsRegex], fun hcc => Tok.noConfusion hcc, fun w hcc => Tok.noConfusion hcc⟩
                                · rw [if_neg c27] at h
                                  by_cases c31 : byteAt src off = 43
                                  · rw [if_pos c31] at h
                                    by_cases c32 : byteAt src (off + 1) = 43
                                    · rw [if_pos c32] at h
                                      injection h with h; subst h; exact ⟨by simp [armsRegex], fun hcc => Tok.noConfusion hcc, fun w hcc => Tok.noConfusion hcc⟩
                                    · rw [if_neg c32] at h
                                      by_cases c33 : byteAt src (off + 1) = 61
                                      · rw [if_pos c33] at h
                                        injection h with h; subst h; exact ⟨by simp [armsRegex], fun hcc => Tok.noConfusion hcc, fun w hcc => Tok.noConfusion hcc⟩
                                      · rw [if_neg c33] at h
                                        injection h with h; subst h; exact ⟨by simp [armsRegex], fun hcc => Tok.noConfusion hcc, fun w hcc => Tok.noConfusion hcc⟩
                                  · rw [if_neg c31] at h
                                    by_cases c34 : byteAt src off = 45
                                    · rw [if_pos c34] at h
                                      by_cases c35 : byteAt src (off + 1) = 45
                                      · rw [if_pos c35] at h
                                        injection h with h; subst h; exact ⟨by simp [armsRegex], fun hcc => Tok.noConfusion hcc, fun w hcc => Tok.noConfusion hcc⟩
                                      · rw [if_neg c35] at h
                                        by_cases c36 : byteAt src (off + 1) = 61
                                        · rw [if_pos c36] at h
                                          injection h with h; subst h; exact ⟨by simp [armsRegex], fun hcc => Tok.noConfusion hcc, fun w hcc => Tok.noConfusion hcc⟩
                                        · rw [if_neg c36] at h
                                          injection h with h; subst h; exact ⟨by simp [armsRegex], fun hcc => Tok.noConfusion hcc, fun w hcc => Tok.noConfusion hcc⟩
                                    · rw [if_neg c34] at h
                                      by_cases c37 : byteAt src off = 42
                                      · rw [if_pos c37] at h
                                        by_cases c38 : byteAt src (off + 1) = 61
                                        · rw [if_pos c38] at h
                                          injection h with h; subst h; exact ⟨by simp [armsRegex], fun hcc => Tok.noConfusion hcc, fun w hcc => Tok.noConfusion hcc⟩
                                        · rw [if_neg c38] at h
                                          injection h with h; subst h; exact ⟨by simp [armsRegex], fun hcc => Tok.noConfusion hcc, fun w hcc => Tok.noConfusion hcc⟩
                                      · rw [if_neg c37] at h
                                        by_cases c39 : byteAt src off = 47
                                        · rw [if_pos c39] at h
                                          by_cases c40 : byteAt src (off + 1) = 61
                                          · rw [if_pos c40] at h
                                            injection h with h; subst h; exact ⟨by simp [armsRegex], fun hcc => Tok.noConfusion hcc, fun w hcc => Tok.noConfusion hcc⟩
                                          · rw [if_neg c40] at h
                                            injection h with h; subst h; exact ⟨by simp [armsRegex], fun hcc => Tok.noConfusion hcc, fun w hcc => Tok.noConfusion hcc⟩
                                        · rw [if_neg c39] at h
                                          by_cases c41 : byteAt src off = 37
                                          · rw [if_pos c41] at h
                                            by_cases c42 : byteAt src (off + 1) = 61
                                            · rw [if_pos c42] at h
                                              injection h with h; subst h; exact ⟨by simp [armsRegex], fun hcc => Tok.noConfusion hcc, fun w hcc => Tok.noConfusion hcc⟩
                                            · rw [if_neg c42] at h
                                              injection h with h; subst h; exact ⟨by simp [armsRegex], fun hcc => Tok.noConfusion hcc, fun w hcc => Tok.noConfusion hcc⟩
                                          · rw [if_neg c41] at h
                                            by_cases c43 : byteAt src off = 38
                                            · rw [if_pos c43] at h
                                              by_cases c44 : byteAt src (off + 1) = 38
                                              · rw [if_pos c44] at h
                                                injection h with h; subst h; exact ⟨by simp [armsRegex], fun hcc => Tok.noConfusion hcc, fun w hcc => Tok.noConfusion hcc⟩
                                              · rw [if_neg c44] at h
                                                by_cases c45 : byteAt src (off + 1) = 61
                                                · rw [if_pos c45] at h
                                                  injection h with h; subst h; exact ⟨by simp [armsRegex], fun hcc => Tok.noConfusion hcc, fun w hcc => Tok.noConfusion hcc⟩
                                                · rw [if_neg c45] at h
                                                  injection h with h; subst h; exact ⟨by simp [armsRegex], fun hcc => Tok.noConfusion hcc, fun w hcc => Tok.noConfusion hcc⟩
                                            · rw [if_neg c43] at h
                                              by_cases c46 : byteAt src off = 124
                                              · rw [if_pos c46] at h
                                                by_cases c47 : byteAt src (off + 1) = 124
                                                · rw [if_pos c47] at h
                                                  injection h with h; subst h; exact ⟨by simp [armsRegex], fun hcc => Tok.noConfusion hcc, fun w hcc => Tok.noConfusion hcc⟩
                                                · rw [if_neg c47] at h
                                                  by_cases c48 : byteAt src (off + 1) = 61
                                                  · rw [if_pos c48] at h
                                                    injection h with h; subst h; exact ⟨by simp [armsRegex], fun hcc => Tok.noConfusion hcc, fun w hcc => Tok.noConfusion hcc⟩
                                                  · rw [if_neg c48] at h
                                                    injection h with h; subst h; exact ⟨by simp [armsRegex], fun hcc => Tok.noConfusion hcc, fun w hcc => Tok.noConfusion hcc⟩
                                              · rw [if_neg c46] at h
                                                by_cases c49 : byteAt src off = 94
                                                · rw [if_pos c49] at h
                                                  by_cases c50 : byteAt src (off + 1) = 61
                                                  · rw [if_pos c50] at h
                                                    injection h with h; subst h; exact ⟨by simp [armsRegex], fun hcc => Tok.noConfusion hcc, fun w hcc => Tok.noConfusion hcc⟩
                                                  · rw [if_neg c50] at h
                                                    injection h with h; subst h; exact ⟨by simp [armsRegex], fun hcc => Tok.noConfusion hcc, fun w hcc => Tok.noConfusion hcc⟩
                                                · rw [if_neg c49] at h
                                                  exact Option.noConfusion h

/-- The operator-switch fall-through happens only on bytes outside the
operator set. -/
theorem opScan_none_props {src : Array Nat} {off : Nat} {rv : Bool}
    (h : opScan src off rv = none) :
    opLeadByte (byteAt src off) = false := by
  delta opScan at h
  by_cases c1 : byteAt src off = 123
  · rw [if_pos c1] at h
    exact Option.noConfusion h
  · rw [if_neg c1] at h
    by_cases c2 : byteAt src off = 125
    · rw [if_pos c2] at h
      exact Option.noConfusion h
    · rw [if_neg c2] at h
      by_cases c3 : byteAt src off = 40
      · rw [if_pos c3] at h
        exact Option.noConfusion h
      · rw [if_neg c3] at h
        by_cases c4 : byteAt src off = 41
        · rw [if_pos c4] at h
          exact Option.noConfusion h
        · rw [if_neg c4] at h
          by_cases c5 : byteAt src off = 91
          · rw [if_pos c5] at h
            exact Option.noConfusion h
          · rw [if_neg c5] at h
            by_cases c6 : byteAt src off = 93
            · rw [if_pos c6] at h
              exact Option.noConfusion h
            · rw [if_neg c6] at h
              by_cases c7 : byteAt src off = 46
              · rw [if_pos c7] at h
                exact Option.noConfusion h
              · rw [if_neg c7] at h
                by_cases c8 : byteAt src off = 59
                · rw [if_pos c8] at h
                  exact Option.noConfusion h
                · rw [if_neg c8] at h
                  by_cases c9 : byteAt src off = 44
                  · rw [if_pos c9] at h
                    exact Option.noConfusion h
                  · rw [if_neg c9] at h
                    by_cases c10 : byteAt src off = 126
                    · rw [if_pos c10] at h
                      exact Option.noConfusion h
                    · rw [if_neg c10] at h
                      by_cases c11 : byteAt src off = 63
                      · rw [if_pos c11] at h
                        exact Option.noConfusion h
                      · rw [if_neg c11] at h
                        by_cases c12 : byteAt src off = 58
                        · rw [if_pos c12] at h
                          exact Option.noConfusion h
                        · rw [if_neg c12] at h
                          by_cases c13 : byteAt src off = 60
                          · rw [if_pos c13] at h
                            by_cases c14 : byteAt src (off + 1) = 61
                            · rw [if_pos c14] at h
                              exact Option.noConfusion h
                            · rw [if_neg c14] at h
                              by_cases c15 : byteAt src (off + 1) = 60
                              · rw [if_pos c15] at h
                                by_cases c16 : byteAt src (off + 2) = 61
                                · rw [if_pos c16] at h
                                  exact Option.noConfusion h
                                · rw [if_neg c16] at h
                                  exact Option.noConfusion h
                              · rw [if_neg c15] at h
                                exact Option.noConfusion h
                          · rw [if_neg c13] at h
                            by_cases c17 : byteAt src off = 62
                            · rw [if_pos c17] at h
                              by_cases c18 : byteAt src (off + 1) = 61
                              · rw [if_pos c18] at h
                                exact Option.noConfusion h
                              · rw [if_neg c18] at h
                                by_cases c19 : byteAt src (off + 1) = 62
                                · rw [if_pos c19] at h
                                  by_cases c20 : byteAt src (off + 2) = 62
                                  · rw [if_pos c20] at h
                                    by_cases c21 : byteAt src (off + 3) = 61
                                    · rw [if_pos c21] at h
                                      exact Option.noConfusion h
                                    · rw [if_neg c21] at h
                                      exact Option.noConfusion h
                                  · rw [if_neg c20] at h
                                    by_cases c22 : byteAt src (off + 2) = 61
                                    · rw [if_pos c22] at h
                                      exact Option.noConfusion h
                                    · rw [if_neg c22] at h
                                      exact Option.noConfusion h
                                · rw [if_neg c19] at h
                                  exact Option.noConfusion h
                            · rw [if_neg c17] at h
                              by_cases c23 : byteAt src off = 61
                              · rw [if_pos c23] at h
                                by_cases c24 : byteAt src (off + 1) = 61
                                · rw [if_pos c24] at h
                                  by_cases c25 : byteAt src (off + 2) = 61
                                  · rw [if_pos c25] at h
                                    exact Option.noConfusion h
                                  · rw [if_neg c25] at h
                                    exact Option.noConfusion h
                                · rw [if_neg c24] at h
                                  by_cases c26 : byteAt src (off + 1) = 126
                                  · rw [if_pos c26] at h
                                    exact Option.noConfusion h
                                  · rw [if_neg c26] at h
                                    exact Option.noConfusion h
                              · rw [if_neg c23] at h
                                by_cases c27 : byteAt src off = 33
                                · rw [if_pos c27] at h
                                  by_cases c28 : byteAt src (off + 1) = 61
                                  · rw [if_pos c28] at h
                                    by_cases c29 : byteAt src (off + 2) = 61
                                    · rw [if_pos c29] at h
                                      exact Option.noConfusion h
                                    · rw [if_neg c29] at h
                                      exact Option.noConfusion h
                                  · rw [if_neg c28] at h
                                    by_cases c30 : byteAt src (off + 1) = 126
                                    · rw [if_pos c30] at h
                                      exact Option.noConfusion h
                                    · rw [if_neg c30] at h
                                      exact Option.noConfusion h
                                · rw [if_neg c27] at h
                                  by_cases c31 : byteAt src off = 43
                                  · rw [if_pos c31] at h
                                    by_cases c32 : byteAt src (off + 1) = 43
                                    · rw [if_pos c32] at h
                                      exact Option.noConfusion h
                                    · rw [if_neg c32] at h
                                      by_cases c33 : byteAt src (off + 1) = 61
                                      · rw [if_pos c33] at h
                                        exact Option.noConfusion h
                                      · rw [if_neg c33] at h
                                        exact Option.noConfusion h
                                  · rw [if_neg c31] at h
                                    by_cases c34 : byteAt src off = 45
                                    · rw [if_pos c34] at h
                                      by_cases c35 : byteAt src (off + 1) = 45
                                      · rw [if_pos c35] at h
                                        exact Option.noConfusion h
                                      · rw [if_neg c35] at h
                                        by_cases c36 : byteAt src (off + 1) = 61
                                        · rw [if_pos c36] at h
                                          exact Option.noConfusion h
                                        · rw [if_neg c36] at h
                                          exact Option.noConfusion h
                                    · rw [if_neg c34] at h
                                      by_cases c37 : byteAt src off = 42
                                      · rw [if_pos c37] at h
                                        by_cases c38 : byteAt src (off + 1) = 61
                                        · rw [if_pos c38] at h
                                          exact Option.noConfusion h
                                        · rw [if_neg c38] at h
                                          exact Option.noConfusion h
                                      · rw [if_neg c37] at h
                                        by_cases c39 : byteAt src off = 47
                                        · rw [if_pos c39] at h
                                          by_cases c40 : byteAt src (off + 1) = 61
                                          · rw [if_pos c40] at h
                                            exact Option.noConfusion h
                                          · rw [if_neg c40] at h
                                            exact Option.noConfusion h
                                        · rw [if_neg c39] at h
                                          by_cases c41 : byteAt src off = 37
                                          · rw [if_pos c41] at h
                                            by_cases c42 : byteAt src (off + 1) = 61
                                            · rw [if_pos c42] at h
                                              exact Option.noConfusion h
                                            · rw [if_neg c42] at h
                                              exact Option.noConfusion h
                                          · rw [if_neg c41] at h
                                            by_cases c43 : byteAt src off = 38
                                            · rw [if_pos c43] at h
                                              by_cases c44 : byteAt src (off + 1) = 38
                                              · rw [if_pos c44] at h
                                                exact Option.noConfusion h
                                              · rw [if_neg c44] at h
                                                by_cases c45 : byteAt src (off + 1) = 61
                                                · rw [if_pos c45] at h
                                                  exact Option.noConfusion h
                                                · rw [if_neg c45] at h
                                                  exact Option.noConfusion h
                                            · rw [if_neg c43] at h
                                              by_cases c46 : byteAt src off = 124
                                              · rw [if_pos c46] at h
                                                by_cases c47 : byteAt src (off + 1) = 124
                                                · rw [if_pos c47] at h
                                                  exact Option.noConfusion h
                                                · rw [if_neg c47] at h
                                                  by_cases c48 : byteAt src (off + 1) = 61
                                                  · rw [if_pos c48] at h
                                                    exact Option.noConfusion h
                                                  · rw [if_neg c48] at h
                                                    exact Option.noConfusion h
                                              · rw [if_neg c46] at h
                                                by_cases c49 : byteAt src off = 94
                                                · rw [if_pos c49] at h
                                                  by_cases c50 : byteAt src (off + 1) = 61
                                                  · rw [if_pos c50] at h
                                                    exact Option.noConfusion h
                                                  · rw [if_neg c50] at h
                                                    exact Option.noConfusion h
                                                · rw [if_neg c49] at h
                                                  unfold opLeadByte; simp [*]

/-- A keyword lookup result comes from the table. -/
theorem keywordLookup_mem {slice : List Nat} {l : List (String × Tok)} {t : Tok}
    (h : keywordLookup slice l = some t) : ∃ p ∈ l, p.2 = t := by
  induction l with
  | nil => exact Option.noConfusion h
  | cons p rest ih =>
    unfold keywordLookup at h
    split at h
    · exact ⟨p, List.mem_cons_self p rest, by injection h⟩
    · obtain ⟨q, hq, ht⟩ := ih h
      exact ⟨q, List.mem_cons_of_mem p hq, ht⟩

/-- Among the keyword tokens, exactly `case` re-arms the regex-valid flag. -/
theorem keywords_armsRegex :
    ∀ p ∈ keywords, armsRegex p.2 = decide (p.2 = Tok.kw "case") := by decide

/-- No keyword token is the error token. -/
theorem keywords_ne_err : ∀ p ∈ keywords, p.2 ≠ Tok.err := by decide

/-- The identifier/keyword branch: the regex-valid flag afterwards is the
incoming one re-armed exactly by the keyword `case`, and the branch never
errs and leaves the error slot alone. -/
theorem lexIdentGo_inv (s : gesLex) (eso : Nat) :
    (lexIdentGo s eso).state.regexValid =
      (s.regexValid || armsRegex (lexIdentGo s eso).tok) ∧
    (lexIdentGo s eso).tok ≠ .err ∧
    (lexIdentGo s eso).state.error = s.error := by
  unfold lexIdentGo
  cases hk : keywordLookup (byteSlice s.source s.offset eso) keywords with
  | none => exact ⟨by simp [armsRegex], fun hcc => Tok.noConfusion hcc, rfl⟩
  | some t =>
    obtain ⟨p, hp, ht⟩ := keywordLookup_mem hk
    have harm := keywords_armsRegex p hp
    have hne := keywords_ne_err p hp
    rw [ht] at harm hne
    refine ⟨?_, hne, rfl⟩
    simp only
    by_cases hc : t = Tok.kw "case"
    · simp [hc, armsRegex]
    · rw [if_neg hc]
      simp only [harm]
      simp [hc]

/-- The single-line comment skip changes only cursor and line counter. -/
theorem lexLineComment_inv (s : gesLex) :
    (lexLineComment s).regexValid = s.regexValid ∧
    (lexLineComment s).error = s.error := by
  unfold lexLineComment lexLineGo
  split <;> exact ⟨rfl, rfl⟩

/-- The multi-line comment branch: a continued scan changes only cursor and
line counter; a produced token is the error token with the unterminated
message recorded (and the flag not re-armed). -/
theorem lexBlockComment_inv (s : gesLex) :
    (∀ s', lexBlockComment s = .more s' →
      s'.regexValid = s.regexValid ∧ s'.error = s.error) ∧
    (∀ out, lexBlockComment s = .done out →
      out.state.regexValid = (s.regexValid || armsRegex out.tok) ∧
      out.tok = .err ∧ ∃ m, out.state.error = some m) := by
  unfold lexBlockComment lexBlockGo
  split
  · refine ⟨?_, ?_⟩ <;> intro x h
    · exact LexStepRes.noConfusion h
    · injection h with h
      subst h
      exact ⟨by simp [armsRegex], rfl, _, rfl⟩
  · refine ⟨?_, ?_⟩ <;> intro x h
    · injection h with h
      subst h
      exact ⟨rfl, rfl⟩
    · exact LexStepRes.noConfusion h

/-- The numeric emit logic: it never touches the regex-valid flag, never
re-arms, and records a message whenever it produces the error token. -/
theorem lexNumberEmit_inv (s : gesLex) (radix off3 eso u : Nat) :
    (lexNumberEmit s radix off3 eso u).state.regexValid = s.regexValid ∧
    armsRegex (lexNumberEmit s radix off3 eso u).tok = false ∧
    ((lexNumberEmit s radix off3 eso u).tok = .err →
      ∃ m, (lexNumberEmit s radix off3 eso u).state.error = some m) := by
  unfold lexNumberEmit
  repeat' split
  all_goals exact ⟨rfl, by simp [armsRegex], by simp⟩

/-- The numeric branch (rollback included) shares the same invariants. -/
theorem lexNumberGo_inv (s : gesLex) (radix off2 eso u : Nat) :
    (lexNumberGo s radix off2 eso u).state.regexValid = s.regexValid ∧
    armsRegex (lexNumberGo s radix off2 eso u).tok = false ∧
    ((lexNumberGo s radix off2 eso u).tok = .err →
      ∃ m, (lexNumberGo s radix off2 eso u).state.error = some m) := by
  unfold lexNumberGo
  repeat' split
  · exact ⟨rfl, by simp [armsRegex], by simp⟩
  · exact ⟨rfl, by simp [armsRegex], by simp⟩
  · exact ⟨rfl, by simp [armsRegex], by simp⟩
  · exact lexNumberEmit_inv s radix (off2 - 1) eso u
  · exact lexNumberEmit_inv s radix off2 eso u

/-- The string-literal branch: flag untouched, never re-arms, message on
error. -/
theorem lexString_inv (s : gesLex) :
    (lexString s).state.regexValid = s.regexValid ∧
    armsRegex (lexString s).tok = false ∧
    ((lexString s).tok = .err → ∃ m, (lexString s).state.error = some m) := by
  unfold lexString
  split <;> exact ⟨rfl, by simp [armsRegex], by simp⟩

/-- The regex-literal branch: flag untouched, never re-arms, message on
error. -/
theorem lexRegexLit_inv (s : gesLex) :
    (lexRegexLit s).state.regexValid = s.regexValid ∧
    armsRegex (lexRegexLit s).tok = false ∧
    ((lexRegexLit s).tok = .err → ∃ m, (lexRegexLit s).state.error = some m) := by
  unfold lexRegexLit
  split <;> exact ⟨rfl, by simp [armsRegex], by simp⟩

/-- The numeric branch invariants at the scanned run. -/
theorem lexNumber_inv (s : gesLex) :
    (lexNumber s).state.regexValid = s.regexValid ∧
    armsRegex (lexNumber s).tok = false ∧
    ((lexNumber s).tok = .err → ∃ m, (lexNumber s).state.error = some m) := by
  unfold lexNumber
  exact lexNumberGo_inv s (numProbe s).1 (numProbe s).2
    (scanDigits (s.source.size + 1) s.source (numProbe s).1 (numProbe s).2 0).1
    (scanDigits (s.source.size + 1) s.source (numProbe s).1 (numProbe s).2 0).2

/-- The identifier branch invariants at the scanned run. -/
theorem lexIdent_inv (s : gesLex) :
    (lexIdent s).state.regexValid = (s.regexValid || armsRegex (lexIdent s).tok) ∧
    (lexIdent s).tok ≠ .err ∧
    (lexIdent s).state.error = s.error := by
  unfold lexIdent
  exact lexIdentGo_inv s (identEnd (s.source.size + 1) s.source s.offset)

/-- One loop iteration of the scanner: a skip changes neither the regex-valid
flag nor the error slot; a produced token leaves the flag exactly re-armed by
the arming tokens, and an error token either records a message or is the
operator-switch fall-through, which leaves the state untouched at an
unrecognized byte. -/
theorem lexStep_inv (s : gesLex) :
    (∀ s', lexStep s = .more s' → s'.regexValid = s.regexValid ∧ s'.error = s.error) ∧
    (∀ out, lexStep s = .done out →
      out.state.regexValid = (s.regexValid || armsRegex out.tok) ∧
      (out.tok = .err → (∃ m, out.state.error = some m) ∨
        (out.state = s ∧ tokenStartByte (byteAt s.source s.offset) = false))) := by
  unfold lexStep
  by_cases c1 : byteAt s.source s.offset = 0
  · rw [if_pos c1]
    refine ⟨fun s' h => LexStepRes.noConfusion h, fun out h => ?_⟩
    injection h with h
    subst h
    exact ⟨by simp [armsRegex], fun htok => Tok.noConfusion htok⟩
  · rw [if_neg c1]
    by_cases c2 : byteAt s.source s.offset = 32 ∨ byteAt s.source s.offset = 9
    · rw [if_pos c2]
      refine ⟨fun s' h => ?_, fun out h => LexStepRes.noConfusion h⟩
      injection h with h
      subst h
      exact ⟨rfl, rfl⟩
    · rw [if_neg c2]
      by_cases c3 : byteAt s.source s.offset = 13 ∧ byteAt s.source (s.offset + 1) = 10
      · rw [if_pos c3]
        refine ⟨fun s' h => ?_, fun out h => LexStepRes.noConfusion h⟩
        injection h with h
        subst h
        exact ⟨rfl, rfl⟩
      · rw [if_neg c3]
        by_cases c4 : byteAt s.source s.offset = 13 ∨ byteAt s.source s.offset = 10
        · rw [if_pos c4]
          refine ⟨fun s' h => ?_, fun out h => LexStepRes.noConfusion h⟩
          injection h with h
          subst h
          exact ⟨rfl, rfl⟩
        · rw [if_neg c4]
          by_cases c5 : byteAt s.source s.offset = 47 ∧ byteAt s.source (s.offset + 1) = 47
          · rw [if_pos c5]
            refine ⟨fun s' h => ?_, fun out h => LexStepRes.noConfusion h⟩
            injection h with h
            subst h
            exact lexLineComment_inv s
          · rw [if_neg c5]
            by_cases c6 : byteAt s.source s.offset = 47 ∧ byteAt s.source (s.offset + 1) = 42
            · rw [if_pos c6]
              refine ⟨fun s' h => (lexBlockComment_inv s).1 s' h, fun out h => ?_⟩
              obtain ⟨hrv, htok, m, hm⟩ := (lexBlockComment_inv s).2 out h
              exact ⟨hrv, fun _ => .inl ⟨m, hm⟩⟩
            · rw [if_neg c6]
              by_cases c7 : identStartByte (byteAt s.source s.offset) = true
              · rw [if_pos c7]
                refine ⟨fun s' h => LexStepRes.noConfusion h, fun out h => ?_⟩
                injection h with h
                subst h
                exact ⟨(lexIdent_inv s).1,
                  fun htok => absurd htok (lexIdent_inv s).2.1⟩
              · rw [if_neg c7]
                by_cases c8 : (48 ≤ byteAt s.source s.offset ∧ byteAt s.source s.offset ≤ 57) ∨
                    (byteAt s.source s.offset = 46 ∧ 48 ≤ byteAt s.source (s.offset + 1) ∧
                      byteAt s.source (s.offset + 1) ≤ 57)
                · rw [if_pos c8]
                  refine ⟨fun s' h => LexStepRes.noConfusion h, fun out h => ?_⟩
                  injection h with h
                  subst h
                  refine ⟨?_, fun htok => .inl ((lexNumber_inv s).2.2 htok)⟩
                  rw [(lexNumber_inv s).1, (lexNumber_inv s).2.1]
                  simp
                · rw [if_neg c8]
                  by_cases c9 : byteAt s.source s.offset = 34 ∨ byteAt s.source s.offset = 39
                  · rw [if_pos c9]
                    refine ⟨fun s' h => LexStepRes.noConfusion h, fun out h => ?_⟩
                    injection h with h
                    subst h
                    refine ⟨?_, fun htok => .inl ((lexString_inv s).2.2 htok)⟩
                    rw [(lexString_inv s).1, (lexString_inv s).2.1]
                    simp
                  · rw [if_neg c9]
                    by_cases c10 : s.regexValid = true ∧ byteAt s.source s.offset = 47
                    · rw [if_pos c10]
                      refine ⟨fun s' h => LexStepRes.noConfusion h, fun out h => ?_⟩
                      injection h with h
                      subst h
                      refine ⟨?_, fun htok => .inl ((lexRegexLit_inv s).2.2 htok)⟩
                      rw [(lexRegexLit_inv s).1, (lexRegexLit_inv s).2.1]
                      simp
                    · rw [if_neg c10]
                      refine ⟨fun s' h => LexStepRes.noConfusion h, fun out h => ?_⟩
                      injection h with h
                      subst h
                      unfold lexOper
                      cases hop : opScan s.source s.offset s.regexValid with
                      | some o =>
                        refine ⟨(opScan_some_props hop).1,
                          fun htok => absurd htok (opScan_some_props hop).2.1⟩
                      | none =>
                        refine ⟨by simp [armsRegex], fun _ => .inr ⟨rfl, ?_⟩⟩
                        have hlead := opScan_none_props hop
                        simp only [identStartByte, decide_eq_true_eq] at c7
                        simp only [opLeadByte, decide_eq_false_iff_not] at hlead
                        simp only [tokenStartByte, identStartByte,
                          decide_eq_true_eq, decide_eq_false_iff_not]
                        push_neg
                        omega

/-- Across a whole raw scan, the regex-valid flag afterwards is the incoming
flag or-ed with the arming effect of the produced token. -/
theorem lexLoop_regexValid (fuel : Nat) (s : gesLex) :
    (lexLoop fuel s).state.regexValid =
      (s.regexValid || armsRegex (lexLoop fuel s).tok) := by
  induction fuel generalizing s with
  | zero => simp [lexLoop, armsRegex]
  | succ fuel ih =>
    unfold lexLoop
    cases hstep : lexStep s with
    | more s' =>
      have hp := (lexStep_inv s).1 s' hstep
      simp only
      rw [ih s', hp.1]
    | done out =>
      simp only
      exact ((lexStep_inv s).2 out hstep).1

/-- C2 (amended): after the exposed lexer produces a token, the regex-valid
flag is armed iff it was not armed before that token and the just-produced
token re-arms it (`case`, `=~`, `!~`); when the flag was armed before a
token, the wrapper unconditionally consumes it — even when that token itself
re-arms. -/
theorem regex_flag_strict_lookahead (s : gesLex) :
    (gesLex.Lex s).state.regexValid =
      (!s.regexValid && armsRegex (gesLex.Lex s).tok) := by
  unfold gesLex.Lex gesLex.lex
  cases hrv : s.regexValid with
  | true => simp
  | false =>
    simp only [Bool.not_false, Bool.true_and, if_neg (Bool.false_ne_true)]
    rw [lexLoop_regexValid (s.source.size + 1) s, hrv]
    simp

/-- C2 counterexample: scanning `case case`, the flag is armed after the
first `case`; the second token is again the arming keyword `case`, yet the
flag is false afterwards — the `Lex` wrapper unconditionally consumes a
previously-armed flag, so "the flag remains armed" fails. -/
theorem regex_flag_rearm_counterexample :
    (gesLex.Lex (newLexer "case case")).state.regexValid = true ∧
    (gesLex.Lex ((gesLex.Lex (newLexer "case case")).state)).tok = Tok.kw "case" ∧
    armsRegex (Tok.kw "case") = true ∧
    (gesLex.Lex ((gesLex.Lex (newLexer "case case")).state)).state.regexValid = false := by
  refine ⟨by decide, by decide, by decide, by decide⟩

/-- Across a whole raw scan that returns the error token, either a message
was recorded, or the scanner state is untouched since the last skip and the
failing byte starts no recognized token. -/
theorem lexLoop_error (fuel : Nat) (s : gesLex)
    (h : (lexLoop fuel s).tok = .err) :
    (∃ m, (lexLoop fuel s).state.error = some m) ∨
      ((lexLoop fuel s).state.error = s.error ∧
        tokenStartByte (byteAt (lexLoop fuel s).state.source
          (lexLoop fuel s).state.offset) = false) := by
  induction fuel generalizing s with
  | zero => exact absurd h (by simp [lexLoop])
  | succ fuel ih =>
    unfold lexLoop at h ⊢
    cases hstep : lexStep s with
    | more s' =>
      rw [hstep] at h
      simp only at h ⊢
      have hp := (lexStep_inv s).1 s' hstep
      rcases ih s' h with h1 | ⟨he, hb⟩
      · exact .inl h1
      · exact .inr ⟨by rw [he, hp.2], hb⟩
    | done out =>
      rw [hstep] at h
      simp only at h ⊢
      rcases ((lexStep_inv s).2 out hstep).2 h with h1 | ⟨hout, hbyte⟩
      · exact .inl h1
      · subst hout
        exact .inr ⟨rfl, hbyte⟩

/-- C7 (amended): a lexical error makes the scanner return the error token,
and every error path except the unrecognized-leading-byte fall-through
records a human-readable message, which Parse surfaces verbatim; the
fall-through leaves the error slot unchanged at a byte that starts no
recognized token, in which case Parse falls back to the generic message. -/
theorem lexical_error_reporting (s : gesLex)
    (h : (gesLex.lex s).tok = .err) :
    (∃ m, (gesLex.lex s).state.error = some m ∧
      parseFailureMessage ((gesLex.lex s).state.error) = m) ∨
    ((gesLex.lex s).state.error = s.error ∧
      tokenStartByte (byteAt (gesLex.lex s).state.source
        (gesLex.lex s).state.offset) = false ∧
      parseFailureMessage none = "Unknown parsing error") := by
  unfold gesLex.lex at *
  rcases lexLoop_error (s.source.size + 1) s h with ⟨m, hm⟩ | ⟨he, hb⟩
  · exact .inl ⟨m, hm, by rw [hm]; rfl⟩
  · exact .inr ⟨he, hb, rfl⟩

/-- C7 witness: the unterminated block comment `/*` errs with its message
recorded and surfaced. -/
theorem lexical_error_reporting_witness :
    (gesLex.lex (newLexer "/*")).tok = .err ∧
    ((∃ m, (gesLex.lex (newLexer "/*")).state.error = some m ∧
      parseFailureMessage ((gesLex.lex (newLexer "/*")).state.error) = m) ∨
    ((gesLex.lex (newLexer "/*")).state.error = (newLexer "/*").error ∧
      tokenStartByte (byteAt (gesLex.lex (newLexer "/*")).state.source
        (gesLex.lex (newLexer "/*")).state.offset) = false ∧
      parseFailureMessage none = "Unknown parsing error")) :=
  ⟨by decide, lexical_error_reporting (newLexer "/*") (by decide)⟩

/-- C7 counterexample: the unrecognized leading byte `#` errs with NO
recorded message — the error slot stays empty and Parse can only surface the
generic fallback, against the claim that every lexical error records a
message. -/
theorem unrecognized_byte_records_no_message :
    (gesLex.lex (newLexer "# abc")).tok = .err ∧
    (gesLex.lex (newLexer "# abc")).state.error = none ∧
    parseFailureMessage ((gesLex.lex (newLexer "# abc")).state.error) =
      "Unknown parsing error" :=
  ⟨by decide, by decide, by decide⟩

/-- A non-empty byte slice is its head byte followed by the rest. -/
theorem byteSlice_cons (src : Array Nat) (a b : Nat) (h : a < b) :
    byteSlice src a b = byteAt src a :: byteSlice src (a + 1) b := by
  unfold byteSlice
  have hb : b - a = (b - (a + 1)) + 1 := by omega
  rw [hb]
  rfl

/-- The identifier run end never precedes its start. -/
theorem identEnd_ge (fuel : Nat) (src : Array Nat) (i : Nat) :
    i ≤ identEnd fuel src i := by
  induction fuel generalizing i with
  | zero => simp [identEnd]
  | succ fuel ih =>
    unfold identEnd
    split
    · exact le_trans (by omega) (ih (i + 1))
    · exact le_refl i

/-- A keyword lookup fails whenever no table entry starts with the slice's
head byte. -/
theorem keywordLookup_head_ne {h : Nat} {rest : List Nat}
    (l : List (String × Tok))
    (hl : ∀ p ∈ l, (strBytes p.1).head? ≠ some h) :
    keywordLookup (h :: rest) l = none := by
  induction l with
  | nil => rfl
  | cons p t ih =>
    unfold keywordLookup
    split
    · next hc =>
      exfalso
      apply hl p (List.mem_cons_self p t)
      rw [← hc.2]
      rfl
    · exact ih (fun q hq => hl q (List.mem_cons_of_mem p hq))

/-- No keyword starts with `x` or `X`. -/
theorem keywords_head_not_xX :
    ∀ p ∈ keywords,
      (strBytes p.1).head? ≠ some 120 ∧ (strBytes p.1).head? ≠ some 88 := by
  decide

/-- The hex-prefix rollback: on `0x`/`0X` with no hex digit after the prefix,
the scan emits Integer 0 consuming only the `0`. -/
theorem lex_hex_rollback_first (s : gesLex)
    (h0 : byteAt s.source s.offset = 48)
    (hx : byteAt s.source (s.offset + 1) = 120 ∨ byteAt s.source (s.offset + 1) = 88)
    (hnh : isHex (byteAt s.source (s.offset + 2)) = false) :
    gesLex.lex s =
      .mk .lit { parseType := .literal, literal := .integer 0 }
        { s with offset := s.offset + 1 } := by
  have hslice : byteSlice s.source s.offset (s.offset + 1) = [48] := by
    rw [byteSlice_cons s.source s.offset (s.offset + 1) (by omega), h0]
    simp [byteSlice, byteSliceGo]
  have hnum : lexNumber s =
      .mk .lit { parseType := .literal, literal := .integer 0 }
        { s with offset := s.offset + 1 } := by
    unfold lexNumber numProbe
    rcases hx with hx | hx <;>
      simp [h0, hx, scanDigits, hnh, lexNumberGo, hslice, goParseInt10, decimalVal,
        Nat.add_sub_cancel]
  unfold gesLex.lex lexLoop lexStep
  simp [h0, hnum, identStartByte]

/-- A scan whose cursor stands on `x`/`X` produces an identifier token: the
byte starts an identifier run and no keyword starts with it. -/
theorem lex_ident_at_xX (s : gesLex)
    (hx : byteAt s.source s.offset = 120 ∨ byteAt s.source s.offset = 88) :
    (gesLex.lex s).tok = .ident := by
  have hxi : identByte (byteAt s.source s.offset) = true := by
    rcases hx with hx | hx <;> simp [identByte, hx]
  have hstep : identEnd (s.source.size + 1) s.source s.offset
      = identEnd s.source.size s.source (s.offset + 1) := by
    simp [identEnd, hxi]
  have hlt : s.offset < identEnd (s.source.size + 1) s.source s.offset := by
    rw [hstep]
    have := identEnd_ge s.source.size s.source (s.offset + 1)
    omega
  have hslice := byteSlice_cons s.source s.offset
    (identEnd (s.source.size + 1) s.source s.offset) hlt
  have hkw : keywordLookup (byteSlice s.source s.offset
      (identEnd (s.source.size + 1) s.source s.offset)) keywords = none := by
    rw [hslice]
    rcases hx with hx | hx <;> rw [hx]
    · exact keywordLookup_head_ne keywords (fun p hp => (keywords_head_not_xX p hp).1)
    · exact keywordLookup_head_ne keywords (fun p hp => (keywords_head_not_xX p hp).2)
  unfold gesLex.lex lexLoop lexStep
  rcases hx with hx | hx <;>
    simp [hx, identStartByte, lexIdent, lexIdentGo, hkw]

/-- C8: for every input whose next bytes are `0x`/`0X` not followed by a hex
digit, the scanner rolls back and emits the Integer literal 0, consuming only
the `0` (the state advances exactly one byte, nothing else changes), and the
following scan, starting on the `x`/`X`, produces an ordinary identifier
token. -/
theorem hex_prefix_rollback (s : gesLex)
    (h0 : byteAt s.source s.offset = 48)
    (hx : byteAt s.source (s.offset + 1) = 120 ∨ byteAt s.source (s.offset + 1) = 88)
    (hnh : isHex (byteAt s.source (s.offset + 2)) = false) :
    gesLex.lex s =
      .mk .lit { parseType := .literal, literal := .integer 0 }
        { s with offset := s.offset + 1 } ∧
    (gesLex.lex { s with offset := s.offset + 1 }).tok = .ident := by
  refine ⟨lex_hex_rollback_first s h0 hx hnh, ?_⟩
  exact lex_ident_at_xX { s with offset := s.offset + 1 } hx

/-- C8 witness: input `0xyz` yields Integer 0 (consuming one byte) and then
the identifier `xyz`. -/
theorem hex_prefix_rollback_witness :
    (gesLex.lex (newLexer "0xyz")).lval.literal = .integer 0 ∧
    (gesLex.lex (newLexer "0xyz")).state.offset = 1 ∧
    (gesLex.lex ((gesLex.lex (newLexer "0xyz")).state)).tok = .ident ∧
    (gesLex.lex ((gesLex.lex (newLexer "0xyz")).state)).lval.identifier = "xyz" := by
  have h := hex_prefix_rollback (newLexer "0xyz") (by decide) (by decide) (by decide)
  refine ⟨by rw [h.1], by rw [h.1]; rfl, ?_, by decide⟩
  rw [h.1]
  exact h.2

/-- A hex digit's value is below 16. -/
theorem hexToInt_lt (ch : Nat) : hexToInt ch < 16 := by
  unfold hexToInt
  repeat' split
  all_goals omega

/-- The source's `(ival << 4) | hexToInt(ch)` on a 64-bit accumulator is
plain base-16 accumulation reduced mod 2^64 (the or-ed nibble lands in the
zeroed low bits). -/
theorem hexAccum_eq (u d : Nat) : hexAccum u d = (16 * u + hexToInt d) % 2 ^ 64 := by
  unfold hexAccum
  rw [Nat.shiftLeft_eq, Nat.mul_comm u (2 ^ 4),
    ← Nat.mul_add_lt_is_or (by simpa using hexToInt_lt d) u]

/-- Reducing the accumulator mod 2^64 commutes with the base-16 fold. -/
theorem foldl_hex_mod (ds : List Nat) :
    ∀ a : Nat, (ds.foldl (fun x d => 16 * x + hexToInt d) (a % 2 ^ 64)) % 2 ^ 64
      = (ds.foldl (fun x d => 16 * x + hexToInt d) a) % 2 ^ 64 := by
  induction ds with
  | nil => intro a; simp
  | cons d ds ih =>
    intro a
    simp only [List.foldl_cons]
    have hmod : (16 * (a % 2 ^ 64) + hexToInt d) % 2 ^ 64
        = (16 * a + hexToInt d) % 2 ^ 64 :=
      Nat.ModEq.add_right (hexToInt d) (Nat.ModEq.mul_left 16 (Nat.mod_modEq a (2 ^ 64)))
    calc (ds.foldl (fun x d => 16 * x + hexToInt d) (16 * (a % 2 ^ 64) + hexToInt d)) % 2 ^ 64
        = (ds.foldl (fun x d => 16 * x + hexToInt d)
            ((16 * (a % 2 ^ 64) + hexToInt d) % 2 ^ 64)) % 2 ^ 64 := (ih _).symm
      _ = (ds.foldl (fun x d => 16 * x + hexToInt d)
            ((16 * a + hexToInt d) % 2 ^ 64)) % 2 ^ 64 := by rw [hmod]
      _ = (ds.foldl (fun x d => 16 * x + hexToInt d) (16 * a + hexToInt d)) % 2 ^ 64 := ih _

/-- The wrapping digit fold is the exact big-endian fold reduced mod 2^64. -/
theorem foldl_hexAccum_eq (ds : List Nat) : ∀ u, u < 2 ^ 64 →
    ds.foldl hexAccum u = (ds.foldl (fun a d => 16 * a + hexToInt d) u) % 2 ^ 64 := by
  induction ds with
  | nil =>
    intro u hu
    simp only [List.foldl_nil]
    omega
  | cons d ds ih =>
    intro u hu
    simp only [List.foldl_cons]
    rw [ih (hexAccum u d) (by unfold hexAccum; omega), hexAccum_eq, foldl_hex_mod]

/-- A non-empty all-hex run read from the buffer lies inside it (an
out-of-range read would yield the non-hex sentinel 0). -/
theorem run_in_bounds (src : Array Nat) (ds : List Nat) :
    ∀ i, byteSlice src i (i + ds.length) = ds → (∀ d ∈ ds, isHex d = true) →
      ds ≠ [] → i + ds.length ≤ src.size := by
  induction ds with
  | nil => intro i _ _ hne; exact absurd rfl hne
  | cons d ds ih =>
    intro i hsl hhex _
    have hcons := byteSlice_cons src i (i + (d :: ds).length) (by simp)
    rw [hcons] at hsl
    rw [List.cons.injEq] at hsl
    obtain ⟨h1, h2⟩ := hsl
    have hin : i < src.size := by
      by_contra hge
      have : byteAt src i = 0 := by
        unfold byteAt
        rw [Array.getD, dif_neg (by omega)]
      rw [this] at h1
      have := hhex d (List.mem_cons_self d ds)
      rw [← h1] at this
      simp [isHex] at this
    have hidx : i + (d :: ds).length = (i + 1) + ds.length := by
      simp [List.length_cons]
      omega
    rw [hidx] at h2
    cases ds with
    | nil => simpa using hin
    | cons e es =>
      have hrec := ih (i + 1) h2
        (fun q hq => hhex q (List.mem_cons_of_mem d hq)) (by simp)
      simp [List.length_cons] at hrec ⊢
      omega

/-- The radix-16 digit loop consumes exactly a maximal hex run, folding the
digits with the wrapping accumulator. -/
theorem scanDigits16_run (src : Array Nat) (ds : List Nat) :
    ∀ i u fuel,
      byteSlice src i (i + ds.length) = ds →
      (∀ d ∈ ds, isHex d = true) →
      isHex (byteAt src (i + ds.length)) = false →
      ds.length < fuel →
      scanDigits fuel src 16 i u = (i + ds.length, ds.foldl hexAccum u) := by
  induction ds with
  | nil =>
    intro i u fuel _ _ hstop hf
    obtain ⟨f, rfl⟩ : ∃ f, fuel = f + 1 := ⟨fuel - 1, by omega⟩
    simp only [List.length_nil, Nat.add_zero] at hstop
    unfold scanDigits
    rw [if_neg (by simp [hstop])]
    simp
  | cons d ds ih =>
    intro i u fuel hsl hhex hstop hf
    obtain ⟨f, rfl⟩ : ∃ f, fuel = f + 1 := ⟨fuel - 1, by omega⟩
    have hcons := byteSlice_cons src i (i + (d :: ds).length) (by simp)
    rw [hcons] at hsl
    rw [List.cons.injEq] at hsl
    obtain ⟨h1, h2⟩ := hsl
    have hdx : isHex d = true := hhex d (List.mem_cons_self d ds)
    have hlen : i + (d :: ds).length = (i + 1) + ds.length := by
      simp [List.length_cons]
      omega
    rw [hlen] at h2 hstop
    have hrec := ih (i + 1) (hexAccum u d) f h2
      (fun q hq => hhex q (List.mem_cons_of_mem d hq))
      hstop
      (by simp at hf ⊢; omega)
    unfold scanDigits
    rw [h1, if_pos hdx, if_pos rfl, hrec, hlen]
    simp

/-- C9 (amended): for every input whose next token starts with `0x`/`0X`
followed by at least one hex digit, the scanner consumes the maximal run of
hex digits and emits an Integer literal equal to the big-endian base-16
interpretation of the run reduced mod 2^64 and read as a signed two's
complement 64-bit value — i.e. the exact interpretation whenever it fits —
with uppercase and lowercase hex letters valued identically. -/
theorem hex_literal_wrapped (s : gesLex) (ds : List Nat)
    (h0 : byteAt s.source s.offset = 48)
    (hx : byteAt s.source (s.offset + 1) = 120 ∨ byteAt s.source (s.offset + 1) = 88)
    (hne : ds ≠ [])
    (hrun : byteSlice s.source (s.offset + 2) (s.offset + 2 + ds.length) = ds)
    (hhex : ∀ d ∈ ds, isHex d = true)
    (hstop : isHex (byteAt s.source (s.offset + 2 + ds.length)) = false) :
    gesLex.lex s =
      .mk .lit { parseType := .literal
                 literal := .integer (int64ofU64 (hexInterp ds % 2 ^ 64)) }
        { s with offset := s.offset + 2 + ds.length } ∧
    (∀ c, 97 ≤ c ∧ c ≤ 102 → hexToInt c = hexToInt (c - 32)) := by
  constructor
  case right =>
    intro c hc
    unfold hexToInt
    repeat' split
    all_goals omega
  case left =>
  have hbound : (s.offset + 2) + ds.length ≤ s.source.size :=
    run_in_bounds s.source ds (s.offset + 2) hrun hhex hne
  have hfuel : ds.length < s.source.size + 1 := by omega
  have hscan := scanDigits16_run s.source ds (s.offset + 2) 0 (s.source.size + 1)
    hrun hhex hstop hfuel
  have hfold : ds.foldl hexAccum 0 = hexInterp ds % 2 ^ 64 := by
    rw [foldl_hexAccum_eq ds 0 (by norm_num)]
    rfl
  have hlp : 0 < ds.length := List.length_pos.mpr hne
  have hne2 : ¬ (s.offset + 2 + ds.length = s.offset + 2) := by omega
  have hnum : lexNumber s =
      .mk .lit { parseType := .literal
                 literal := .integer (int64ofU64 (hexInterp ds % 2 ^ 64)) }
        { s with offset := s.offset + 2 + ds.length } := by
    unfold lexNumber numProbe
    rcases hx with hx | hx <;>
      simp [h0, hx, hscan, hfold, lexNumberGo, lexNumberEmit, hne2]
  unfold gesLex.lex lexLoop lexStep
  simp [h0, hnum, identStartByte]

/-- C9 counterexample: `0xFFFFFFFFFFFFFFFF` is scanned as Integer(-1) — the
64-bit accumulator wraps — while the big-endian base-16 interpretation of the
digit run is 2^64 - 1, so the claim's unqualified equality fails. -/
theorem hex_literal_overflow_counterexample :
    (gesLex.lex (newLexer "0xFFFFFFFFFFFFFFFF")).lval.literal = .integer (-1) ∧
    hexInterp (strBytes "FFFFFFFFFFFFFFFF") = 18446744073709551615 ∧
    (-1 : Int) ≠ (18446744073709551615 : Int) :=
  ⟨by decide, by decide, by decide⟩

/-- C9 witness: `0x0aBc` (mixed case) is scanned as Integer 2748, the exact
interpretation of the run. -/
theorem hex_literal_wrapped_witness :
    (gesLex.lex (newLexer "0x0aBc")).lval.literal = .integer 2748 ∧
    (2748 : Int) = int64ofU64 (hexInterp [48, 97, 66, 99] % 2 ^ 64) := by
  have h := hex_literal_wrapped (newLexer "0x0aBc") [48, 97, 66, 99]
    (by decide) (by decide) (by decide) (by decide) (by decide) (by decide)
  refine ⟨?_, by decide⟩
  rw [h.1]
  decide
